import Mathlib

/-!
Shallow embedding of the day-06 grid-patrol core of the repository
(`src/day_06.rs` together with the coordinate library `util/src/coord.rs`).

Modelling conventions:
* Rust `isize` coordinates are Lean `Int`; `u8` cell values are Lean `Nat`
  taken modulo 256 where the source performs `u8` arithmetic (release-mode
  wrapping; every theorem below stays far away from the wrap except where the
  source itself cannot overflow).
* `nalgebra::DMatrix<u8>` is a bounds-carrying structure with a total entry
  function.  `Coord::as_pair` casts a negative `isize` to `usize`, which wraps
  to a value at least `2^63`; since every matrix in this code has fewer than
  255 rows/columns, an access through `as_pair` is in bounds exactly when both
  coordinates satisfy `0 ≤ x < dim`.  All four access styles of the source are
  modelled with that condition: `get_unchecked`/`get_unchecked_mut` out of
  bounds is undefined behaviour (modelled as the failure `oob_access`), the
  checked `Index`/`IndexMut` panics (`index_panic`), and `get`/`get_mut`
  returns `Option`.
* Every fallible or panicking operation returns `Except PanicKind`; Rust
  `assert!` failure is `assert_fail`, `unwrap` on `None` is `unwrap_panic`,
  `unreachable!` is `unreachable_panic`, division by zero is `arith_panic`.
* Unbounded `loop`/`while` constructs take an explicit fuel argument and
  return `none` when the fuel is exhausted.
* The source's `Direction` enum also has four diagonal variants; the day-06
  code never constructs them and all its helper functions (`turn`, `index`,
  `mask`, used on every code path here) hit `unreachable!` on them, so the
  embedding restricts the type to the four cardinal variants.
* `rayon` parallel iteration is only used in the source for a pure count and
  for a per-worker fold whose reduction is a commutative sum; both are
  modelled sequentially.
-/

namespace Day06

inductive Direction : Type where
  | North : Direction
  | East : Direction
  | South : Direction
  | West : Direction
deriving DecidableEq

structure Coord : Type where
  row : Int
  col : Int
deriving DecidableEq

instance : Add Coord := ⟨fun a b => ⟨a.row + b.row, a.col + b.col⟩⟩

/-- `u8` wrap-around (release-mode semantics of `u8` arithmetic). -/
def u8val (n : Nat) : Nat := n % 256

/-- `steps * Coord::from(dir)`: a `u8` scalar widened to `isize` times a coordinate. -/
def scale_u8 (n : Nat) (c : Coord) : Coord :=
  ⟨(u8val n : Int) * c.row, (u8val n : Int) * c.col⟩

/-- `Coord::has_negatives`. -/
def Coord.has_negatives (c : Coord) : Bool :=
  decide (c.row < 0) || decide (c.col < 0)

/-- `Coord::bounded_by`: only the upper bounds are compared. -/
def Coord.bounded_by (c bound : Coord) : Bool :=
  decide (c.row < bound.row) && decide (c.col < bound.col)

/-- `DirectionUtils::turn` (90° clockwise). -/
def Direction.turn : Direction → Direction
  | .North => .East
  | .East => .South
  | .South => .West
  | .West => .North

/-- `DirectionUtils::index`. -/
def Direction.index : Direction → Fin 4
  | .North => 0
  | .East => 1
  | .South => 2
  | .West => 3

/-- `DirectionUtils::from` (the in-range contract of the `usize` argument is
expressed by `Fin 4`; the source hits `unreachable!` outside it). -/
def Direction.from_index : Fin 4 → Direction
  | 0 => .North
  | 1 => .East
  | 2 => .South
  | 3 => .West

/-- `DirectionUtils::mask`. -/
def Direction.mask : Direction → Nat
  | .North => 1
  | .East => 2
  | .South => 4
  | .West => 8

/-- `impl From<Direction> for Coord` (cardinal cases). -/
def Coord.of_direction : Direction → Coord
  | .North => ⟨-1, 0⟩
  | .East => ⟨0, 1⟩
  | .South => ⟨1, 0⟩
  | .West => ⟨0, -1⟩

/-- The distinguishable ways the Rust code can fail at runtime. -/
inductive PanicKind : Type where
  | oob_access : PanicKind
  | index_panic : PanicKind
  | assert_fail : PanicKind
  | unwrap_panic : PanicKind
  | unreachable_panic : PanicKind
  | arith_panic : PanicKind
deriving DecidableEq

/-- `nalgebra::DMatrix<u8>`: dimensions plus a total entry function (only
entries with `0 ≤ r < nrows`, `0 ≤ c < ncols` are ever meaningful). -/
structure DMatrix : Type where
  nrows : Nat
  ncols : Nat
  entry : Int → Int → Nat

/-- Whether an access through `Coord::as_pair` lands inside the matrix. -/
def DMatrix.in_bounds (m : DMatrix) (p : Coord) : Bool :=
  decide (0 ≤ p.row) && decide (p.row < (m.nrows : Int)) &&
    (decide (0 ≤ p.col) && decide (p.col < (m.ncols : Int)))

/-- `get_unchecked(pos.as_pair())`: out of bounds is undefined behaviour. -/
def DMatrix.get_unchecked (m : DMatrix) (p : Coord) : Except PanicKind Nat :=
  if m.in_bounds p then .ok (m.entry p.row p.col) else .error .oob_access

/-- The checked `Index` operator `m[pos.as_pair()]`: out of bounds panics. -/
def DMatrix.get_indexed (m : DMatrix) (p : Coord) : Except PanicKind Nat :=
  if m.in_bounds p then .ok (m.entry p.row p.col) else .error .index_panic

/-- `m.get(pos.as_pair())`. -/
def DMatrix.get_opt (m : DMatrix) (p : Coord) : Option Nat :=
  if m.in_bounds p then some (m.entry p.row p.col) else none

/-- Raw in-place store of a `u8` (used only behind a bounds decision). -/
def DMatrix.write (m : DMatrix) (p : Coord) (v : Nat) : DMatrix :=
  { m with entry := fun r c => if r = p.row && c = p.col then u8val v else m.entry r c }

/-- `get_unchecked_mut(pos.as_pair())` followed by a store. -/
def DMatrix.set_unchecked (m : DMatrix) (p : Coord) (v : Nat) : Except PanicKind DMatrix :=
  if m.in_bounds p then .ok (m.write p v) else .error .oob_access

/-- The checked `IndexMut` operator followed by a store. -/
def DMatrix.set_indexed (m : DMatrix) (p : Coord) (v : Nat) : Except PanicKind DMatrix :=
  if m.in_bounds p then .ok (m.write p v) else .error .index_panic

/-- `DMatrix::zeros`. -/
def DMatrix.zeros (r c : Nat) : DMatrix := ⟨r, c, fun _ _ => 0⟩

/-- `StepTable::MARKER = u8::MAX`. -/
def MARKER : Nat := 255

/-- `StepTable`: four per-direction matrices plus the room size. -/
structure StepTable : Type where
  steps_to_obstruction : Fin 4 → DMatrix
  room_size : Coord

/-- Replace one of the four matrices. -/
def StepTable.set_mat (t : StepTable) (i : Fin 4) (m : DMatrix) : StepTable :=
  { t with steps_to_obstruction := fun j => if j = i then m else t.steps_to_obstruction j }

/-- The body of `StepTable::new` after its two asserts: each direction matrix
initialised with the distance-to-edge values the source loops write
(`North: row_idx + 1`, `East: cols - col_idx`, `South: rows - row_idx`,
`West: col_idx + 1`). -/
def fresh_table (rows cols : Nat) : StepTable where
  steps_to_obstruction := fun i =>
    { nrows := rows
      ncols := cols
      entry := fun r c =>
        match Direction.from_index i with
        | .North => (r + 1).toNat
        | .East => ((cols : Int) - c).toNat
        | .South => ((rows : Int) - r).toNat
        | .West => (c + 1).toNat }
  room_size := ⟨rows, cols⟩

/-- `StepTable::new` with its `assert!(rows < MARKER)` / `assert!(cols < MARKER)`. -/
def StepTable.new (rows cols : Nat) : Except PanicKind StepTable :=
  if rows < MARKER then
    if cols < MARKER then .ok (fresh_table rows cols) else .error .assert_fail
  else .error .assert_fail

/-- The per-direction read pass of `add_obstruction` (the `steps_to_existing`
array, computed before any matrix is mutated). -/
def steps_to_existing_read (t : StepTable) (pos : Coord) (i : Fin 4) :
    Except PanicKind Nat :=
  let dir := Direction.from_index i
  let backward_dir := dir.turn.turn
  let backward_step := Coord.of_direction backward_dir
  let prev_pos := pos + backward_step
  if prev_pos.bounded_by t.room_size then
    match (t.steps_to_obstruction backward_dir.index).get_unchecked prev_pos with
    | .error e => .error e
    | .ok s => .ok (if s = MARKER then MARKER else s)
  else .ok MARKER

/-- The inner write loop of `add_obstruction`
(`for step in 0..=steps_to_existing[dir_idx]`, breaking at `bounded_by`). -/
def add_write_loop (room_size pos backward_step : Coord) :
    Nat → Nat → DMatrix → Except PanicKind DMatrix
  | _, 0, m => .ok m
  | step, iters + 1, m =>
    let prev_pos := pos + scale_u8 (step + 1) backward_step
    if prev_pos.bounded_by room_size then
      match m.set_unchecked prev_pos step with
      | .error e => .error e
      | .ok m' => add_write_loop room_size pos backward_step (step + 1) iters m'
    else .ok m

/-- One direction of `add_obstruction`'s update phase. -/
def add_update_dir (t : StepTable) (pos : Coord) (i : Fin 4) (s : Nat) :
    Except PanicKind StepTable :=
  if s = MARKER then .ok t
  else
    let dir := Direction.from_index i
    let backward_step := Coord.of_direction dir.turn.turn
    match add_write_loop t.room_size pos backward_step 0 (s + 1) (t.steps_to_obstruction i) with
    | .error e => .error e
    | .ok m => .ok (t.set_mat i m)

/-- The final marking pass of `add_obstruction`
(`steps_to_obstruction[pos.as_pair()] = MARKER`, via the checked `IndexMut`). -/
def mark_marker (t : StepTable) (pos : Coord) (i : Fin 4) : Except PanicKind StepTable :=
  match (t.steps_to_obstruction i).set_indexed pos MARKER with
  | .error e => .error e
  | .ok m => .ok (t.set_mat i m)

/-- `StepTable::add_obstruction`. -/
def StepTable.add_obstruction (t : StepTable) (pos : Coord) : Except PanicKind StepTable := do
  let s0 ← steps_to_existing_read t pos 0
  let s1 ← steps_to_existing_read t pos 1
  let s2 ← steps_to_existing_read t pos 2
  let s3 ← steps_to_existing_read t pos 3
  let t ← add_update_dir t pos 0 s0
  let t ← add_update_dir t pos 1 s1
  let t ← add_update_dir t pos 2 s2
  let t ← add_update_dir t pos 3 s3
  let t ← mark_marker t pos 0
  let t ← mark_marker t pos 1
  let t ← mark_marker t pos 2
  let t ← mark_marker t pos 3
  pure t

/-- The per-direction `(cells_to_update, steps_offset)` pass of
`remove_obstruction`, starting with its
`assert!(steps_to_obstruction[dir_idx][pos] == MARKER)`. -/
def remove_info (t : StepTable) (pos : Coord) (i : Fin 4) :
    Except PanicKind (Nat × Nat) := do
  let cur ← (t.steps_to_obstruction i).get_indexed pos
  if cur = MARKER then pure () else throw .assert_fail
  let dir := Direction.from_index i
  let backward_dir := dir.turn.turn
  let step_c := Coord.of_direction dir
  let backward_step := Coord.of_direction backward_dir
  let prev_pos := pos + backward_step
  let cells_to_update : Nat :=
    u8val (1 +
      (if prev_pos.has_negatives then 0
       else
         match (t.steps_to_obstruction backward_dir.index).get_opt prev_pos with
         | none => 0
         | some n => if n = MARKER then 0 else u8val (n + 1)))
  let next_pos := pos + step_c
  let steps_offset ←
    if next_pos.bounded_by t.room_size then do
      let s ← (t.steps_to_obstruction i).get_unchecked next_pos
      pure (if s = MARKER then 0 else u8val (s + 1))
    else pure 1
  pure (cells_to_update, steps_offset)

/-- The write loop of `remove_obstruction` (`for step in 0..cells_to_update`,
breaking on `has_negatives` and on a failing checked `get_mut`). -/
def remove_write_loop (pos backward_step : Coord) (steps_offset : Nat) :
    Nat → Nat → DMatrix → DMatrix
  | _, 0, m => m
  | step, iters + 1, m =>
    let prev_pos := pos + scale_u8 step backward_step
    if prev_pos.has_negatives then m
    else
      match m.get_opt prev_pos with
      | none => m
      | some _ =>
        remove_write_loop pos backward_step steps_offset (step + 1) iters
          (m.write prev_pos (u8val (steps_offset + step)))

/-- One direction of `remove_obstruction`'s update phase. -/
def remove_update_dir (t : StepTable) (pos : Coord) (i : Fin 4) (info : Nat × Nat) :
    StepTable :=
  let backward_step := Coord.of_direction (Direction.from_index i).turn.turn
  t.set_mat i
    (remove_write_loop pos backward_step info.2 0 info.1 (t.steps_to_obstruction i))

/-- `StepTable::remove_obstruction`. -/
def StepTable.remove_obstruction (t : StepTable) (pos : Coord) :
    Except PanicKind StepTable := do
  let i0 ← remove_info t pos 0
  let i1 ← remove_info t pos 1
  let i2 ← remove_info t pos 2
  let i3 ← remove_info t pos 3
  let t := remove_update_dir t pos 0 i0
  let t := remove_update_dir t pos 1 i1
  let t := remove_update_dir t pos 2 i2
  let t := remove_update_dir t pos 3 i3
  pure t

/-- `StepTable::remaining_steps` with its `assert!(result != MARKER)`. -/
def StepTable.remaining_steps (t : StepTable) (pos : Coord) (dir : Direction) :
    Except PanicKind Nat := do
  let result ← (t.steps_to_obstruction dir.index).get_indexed pos
  if result = MARKER then throw .assert_fail else pure result

/-- `StepTable::is_obstructed`. -/
def StepTable.is_obstructed (t : StepTable) (pos : Coord) : Except PanicKind Bool := do
  let v ← (t.steps_to_obstruction 0).get_indexed pos
  pure (decide (v = MARKER))

/-- `impl FromStr for StepTable`: count the lines, take the first line's
length (`unwrap` panics on empty input), build a fresh table and add an
obstruction for every `'#'` cell in row-major order. -/
def step_table_from_lines (lines : List (List Char)) : Except PanicKind StepTable := do
  let rows := lines.length
  let cols ←
    match lines.head? with
    | none => throw .unwrap_panic
    | some l => pure l.length
  let _ := (rows, cols)
  let t ← StepTable.new rows cols
  lines.enum.foldlM
    (fun t rl =>
      rl.2.enum.foldlM
        (fun t ce =>
          if ce.2 = '#' then t.add_obstruction ⟨(rl.1 : Int), (ce.1 : Int)⟩ else pure t)
        t)
    t

structure Guard : Type where
  pos : Coord
  dir : Direction
deriving DecidableEq

instance : Inhabited Guard := ⟨⟨⟨0, 0⟩, .North⟩⟩

/-- `impl FromStr for Guard`: find the flat index of `'^'` over the
concatenated lines (`unwrap` panics when absent) and decode it as
`(index / cols, index % rows)` — exactly the source expression, including its
use of `rows` as the modulus. -/
def guard_from_lines (lines : List (List Char)) : Except PanicKind Guard := do
  let rows := lines.length
  let cols ←
    match lines.head? with
    | none => throw .unwrap_panic
    | some l => pure l.length
  let index ←
    match lines.flatten.findIdx? (fun e => e = '^') with
    | none => throw .unwrap_panic
    | some i => pure i
  if cols = 0 then throw .arith_panic
  else
    pure { pos := ⟨(index / cols : Nat), (index % rows : Nat)⟩, dir := .North }

structure Problem : Type where
  step_table : StepTable
  guard : Guard
  room_size : Coord

/-- `impl FromStr for Problem`. -/
def problem_from_lines (lines : List (List Char)) : Except PanicKind Problem := do
  let rows := lines.length
  let cols ←
    match lines.head? with
    | none => throw .unwrap_panic
    | some l => pure l.length
  let t ← step_table_from_lines lines
  let g ← guard_from_lines lines
  pure ⟨t, g, ⟨rows, cols⟩⟩

/-- `Problem::advance_guard_slow`. -/
def advance_guard_slow (p : Problem) (g : Guard) : Except PanicKind (Option Guard) := do
  let r ← p.step_table.remaining_steps g.pos g.dir
  let g' ←
    if r = MARKER then throw .unreachable_panic
    else if r = 0 then pure { g with dir := g.dir.turn }
    else pure { g with pos := g.pos + Coord.of_direction g.dir }
  pure (if g'.pos.bounded_by p.room_size then some g' else none)

/-- The `loop` body of `Problem::patrol_slow`, with fuel (`none` = fuel ran
out).  The visited matrix is read with `get_unchecked_mut` and updated with
the per-direction bit mask. -/
def patrol_slow_go (p : Problem) : Nat → Guard → DMatrix → Option (Except PanicKind DMatrix)
  | 0, _, _ => none
  | fuel + 1, g, vis =>
    match advance_guard_slow p g with
    | .error e => some (.error e)
    | .ok none => some (.ok vis)
    | .ok (some g') =>
      match vis.get_unchecked g'.pos with
      | .error e => some (.error e)
      | .ok v =>
        if v &&& g'.dir.mask ≠ 0 then some (.ok vis)
        else patrol_slow_go p fuel g' (vis.write g'.pos (v ||| g'.dir.mask))

/-- `Problem::patrol_slow` (visited matrix starts as
`DMatrix::zeros(room_size.row as usize, room_size.col as usize)`). -/
def patrol_slow (fuel : Nat) (p : Problem) : Option (Except PanicKind DMatrix) :=
  patrol_slow_go p fuel p.guard (DMatrix.zeros p.room_size.row.toNat p.room_size.col.toNat)

/-- The count taken by `part_a`: entries of the visited matrix that are
non-zero (the parallel `par_iter().filter().count()` of the source is a pure
count, modelled sequentially). -/
def count_nonzero (m : DMatrix) : Nat :=
  ((List.range m.nrows).map
    (fun r => ((List.range m.ncols).filter (fun c => m.entry r c != 0)).length)).sum

/-- `part_a`. -/
def part_a (fuel : Nat) (lines : List (List Char)) : Option (Except PanicKind Nat) :=
  match problem_from_lines lines with
  | .error e => some (.error e)
  | .ok p =>
    match patrol_slow fuel p with
    | none => none
    | some (.error e) => some (.error e)
    | some (.ok vis) => some (.ok (count_nonzero vis))

/-- `Problem::advance_guard_fast` (jump `remaining_steps` cells, then turn). -/
def advance_guard_fast (p : Problem) (t : StepTable) (g : Guard) :
    Except PanicKind (Option Guard) := do
  let steps ← t.remaining_steps g.pos g.dir
  if steps = MARKER then throw .unreachable_panic
  else
    let g' : Guard :=
      { pos := g.pos + scale_u8 steps (Coord.of_direction g.dir), dir := g.dir.turn }
    pure (if g'.pos.bounded_by p.room_size then some g' else none)

/-- The `while tortoise != hare` loop of `Problem::_brent_cycle_detection`,
with fuel.  `some (.ok true)` = loop detected, `some (.ok false)` = the guard
escaped (`advance_guard_fast` returned `None`, propagated by `?`). -/
def brent_go (p : Problem) (t : StepTable) :
    Nat → Nat → Nat → Guard → Guard → Option (Except PanicKind Bool)
  | 0, _, _, _, _ => none
  | fuel + 1, power, lam, tortoise, hare =>
    if tortoise = hare then some (.ok true)
    else
      let st := if power = lam then (hare, power * 2, 0) else (tortoise, power, lam)
      match advance_guard_fast p t hare with
      | .error e => some (.error e)
      | .ok none => some (.ok false)
      | .ok (some h') => brent_go p t fuel st.2.1 (st.2.2 + 1) st.1 h'

/-- `Problem::_brent_cycle_detection` followed by `is_some` (`patrol_fast`);
the source's `Option<usize>` cycle length is unused by every caller and is
collapsed to the `Bool` that `patrol_fast` returns. -/
def brent_cycle_detection (fuel : Nat) (p : Problem) (t : StepTable) :
    Option (Except PanicKind Bool) :=
  match advance_guard_fast p t p.guard with
  | .error e => some (.error e)
  | .ok none => some (.ok false)
  | .ok (some h) => brent_go p t fuel 1 1 p.guard h

/-- The per-candidate closure of `part_b`: assert the square is free, add the
obstruction, run the fast patrol, remove the obstruction, and return the loop
flag together with the worker's table. -/
def probe_cell (fuel : Nat) (p : Problem) (t : StepTable) (pos : Coord) :
    Option (Except PanicKind (Bool × StepTable)) :=
  match (do
      let ob ← t.is_obstructed pos
      if ob then throw .assert_fail else pure ()
      t.add_obstruction pos : Except PanicKind StepTable) with
  | .error e => some (.error e)
  | .ok t' =>
    match brent_cycle_detection fuel p t' with
    | none => none
    | some (.error e) => some (.error e)
    | some (.ok is_loop) =>
      match t'.remove_obstruction pos with
      | .error e => some (.error e)
      | .ok t'' => some (.ok (is_loop, t''))

/-- Sequential fold of the probes over the candidate list, threading one
cloned table (the source's per-worker `map_init` clone; the reduction is a
commutative sum, so the single-worker order is a faithful model of the
result). -/
def part_b_fold (fuel : Nat) (p : Problem) :
    List Coord → StepTable → Nat → Option (Except PanicKind Nat)
  | [], _, acc => some (.ok acc)
  | pos :: rest, t, acc =>
    match probe_cell fuel p t pos with
    | none => none
    | some (.error e) => some (.error e)
    | some (.ok (il, t')) => part_b_fold fuel p rest t' (acc + if il then 1 else 0)

/-- `part_b`: original slow patrol, candidate extraction over the
column-major slice (`pos` rebuilt with `Coord::from_column_major_index`, i.e.
`(idx % nrows, idx / ncols)` exactly as in the source), starting square
excluded, then the probe fold. -/
def part_b (fuel : Nat) (lines : List (List Char)) : Option (Except PanicKind Nat) :=
  match problem_from_lines lines with
  | .error e => some (.error e)
  | .ok p =>
    match patrol_slow fuel p with
    | none => none
    | some (.error e) => some (.error e)
    | some (.ok vis) =>
      let rows := vis.nrows
      let cols := vis.ncols
      let candidates :=
        (List.range (rows * cols)).filterMap (fun idx =>
          if vis.entry ((idx % rows : Nat) : Int) ((idx / rows : Nat) : Int) != 0 then
            let pos : Coord := ⟨((idx % rows : Nat) : Int), ((idx / cols : Nat) : Int)⟩
            if pos = p.guard.pos then none else some pos
          else none)
      part_b_fold fuel p candidates p.step_table 0

/-- Modelled from the spec ("For every free cell `c` and direction `d`, ...
the count obtained by a naive cell-by-cell walk from `c` in direction `d` to
the next obstruction or boundary", "count of free cells strictly between `c`
and the next obstruction/boundary"): whether a cell lies inside the grid. -/
def spec_in_grid (size p : Coord) : Bool :=
  decide (0 ≤ p.row) && decide (p.row < size.row) &&
    (decide (0 ≤ p.col) && decide (p.col < size.col))

/-- Modelled from the spec: the naive cell-by-cell walk counting the free
cells strictly between a start cell and the next obstruction or grid
boundary in a fixed direction (fuel-indexed; the fuel chosen by
`spec_naive_between` always exceeds the grid diameter). -/
def spec_walk_go (is_obst : Coord → Bool) (size delta : Coord) :
    Nat → Coord → Nat → Nat
  | 0, _, acc => acc
  | fuel + 1, cur, acc =>
    let nxt := cur + delta
    if spec_in_grid size nxt then
      if is_obst nxt then acc else spec_walk_go is_obst size delta fuel nxt (acc + 1)
    else acc

/-- Modelled from the spec: the naive strictly-between count. -/
def spec_naive_between (is_obst : Coord → Bool) (size : Coord) (pos : Coord)
    (dir : Direction) : Nat :=
  spec_walk_go is_obst size (Coord.of_direction dir)
    (size.row.toNat + size.col.toNat + 2) pos 0

/-- Modelled from the spec ("a naive cell-by-cell reference simulation with
no jump table, where the guard at each step turns 90° clockwise if zero steps
remain ahead in its current facing and otherwise moves one cell, terminating
when it exits the grid or repeats a (position, facing) pair"): one simulation
step-list; returns the distinct visited cells (the start cell included). -/
def spec_sim_go (is_obst : Coord → Bool) (size : Coord) :
    Nat → Guard → List Coord → List Guard → Option (List Coord)
  | 0, _, _, _ => none
  | fuel + 1, g, vis, seen =>
    if g ∈ seen then some vis
    else
      let ahead := g.pos + Coord.of_direction g.dir
      if spec_in_grid size ahead then
        if is_obst ahead then
          spec_sim_go is_obst size fuel { g with dir := g.dir.turn } vis (g :: seen)
        else
          spec_sim_go is_obst size fuel { g with pos := ahead }
            (if ahead ∈ vis then vis else ahead :: vis) (g :: seen)
      else some vis

/-- Modelled from the spec: the obstruction predicate of a parsed character
grid (a cell is obstructed when it holds `'#'`). -/
def spec_grid_obst (lines : List (List Char)) (p : Coord) : Bool :=
  ((lines.get? p.row.toNat).bind (fun l => l.get? p.col.toNat)) = some '#' &&
    decide (0 ≤ p.row) && decide (0 ≤ p.col)

/-- Modelled from the spec: the (row, col) position of the unique `'^'`. -/
def spec_guard_pos (lines : List (List Char)) : Option Coord :=
  lines.enum.findSome? (fun rl =>
    (rl.2.findIdx? (fun e => e = '^')).map (fun ci => (⟨(rl.1 : Int), (ci : Int)⟩ : Coord)))

/-- Modelled from the spec: the visited-cell count of the naive reference
simulation on a parsed grid (guard initially facing North). -/
def spec_visited_count (lines : List (List Char)) : Option Nat := do
  let gp ← spec_guard_pos lines
  let size : Coord := ⟨(lines.length : Int), (((lines.head?.map List.length).getD 0 : Nat) : Int)⟩
  let vis ← spec_sim_go (spec_grid_obst lines) size
    (4 * lines.length * ((lines.head?.map List.length).getD 0) + 4)
    ⟨gp, .North⟩ [gp] []
  pure vis.length

/-- The classic 10×10 example grid (`resources/example_06.txt`, asserted by
the source's `example_a`/`example_b` tests to give 41 and 6). -/
def example_lines : List (List Char) :=
  [ ['.','.','.','.','#','.','.','.','.','.'],
    ['.','.','.','.','.','.','.','.','.','#'],
    ['.','.','.','.','.','.','.','.','.','.'],
    ['.','.','#','.','.','.','.','.','.','.'],
    ['.','.','.','.','.','.','.','#','.','.'],
    ['.','.','.','.','.','.','.','.','.','.'],
    ['.','#','.','.','^','.','.','.','.','.'],
    ['.','.','.','.','.','.','.','.','#','.'],
    ['#','.','.','.','.','.','.','.','.','.'],
    ['.','.','.','.','.','.','#','.','.','.'] ]

/-- A 3×3 table whose four matrices all carry the sentinel at `(1, 1)` and a
small value elsewhere (the state left at `(1, 1)` by a successful obstruction
insertion, as far as the sentinel marks are concerned). -/
def sentinel_table_3_3 : StepTable where
  steps_to_obstruction := fun _ =>
    ⟨3, 3, fun r c => if r = 1 && c = 1 then MARKER else 1⟩
  room_size := ⟨3, 3⟩

/-- A 2×2 table where `(0, 1)` carries the sentinel in the North matrix only:
`remove_obstruction (0, 1)` passes the North assertion, then reads the cell
`(-1, 1)` behind the northern edge through `bounded_by` + `get_unchecked`
before the East assertion is ever evaluated. -/
def mixed_sentinel_table : StepTable where
  steps_to_obstruction := fun i =>
    ⟨2, 2, fun r c => if i = 0 && (r = 0 && c = 1) then MARKER else 1⟩
  room_size := ⟨2, 2⟩

section WalkLemmas

@[simp] lemma Coord.add_row (a b : Coord) : (a + b).row = a.row + b.row := rfl

@[simp] lemma Coord.add_col (a b : Coord) : (a + b).col = a.col + b.col := rfl

lemma spec_in_grid_true_iff (size p : Coord) :
    spec_in_grid size p = true ↔
      0 ≤ p.row ∧ p.row < size.row ∧ 0 ≤ p.col ∧ p.col < size.col := by
  simp [spec_in_grid, and_assoc]

lemma spec_in_grid_false_iff (size p : Coord) :
    spec_in_grid size p = false ↔
      ¬ (0 ≤ p.row ∧ p.row < size.row ∧ 0 ≤ p.col ∧ p.col < size.col) := by
  rw [← spec_in_grid_true_iff]
  cases h : spec_in_grid size p <;> simp

lemma spec_walk_go_free_step (size delta : Coord) (fuel : Nat) (pos : Coord) (acc : Nat)
    (h : spec_in_grid size (pos + delta) = true) :
    spec_walk_go (fun _ => false) size delta (fuel + 1) pos acc =
      spec_walk_go (fun _ => false) size delta fuel (pos + delta) (acc + 1) := by
  simp [spec_walk_go, h]

lemma spec_walk_go_free_stop (size delta : Coord) (fuel : Nat) (pos : Coord) (acc : Nat)
    (h : spec_in_grid size (pos + delta) = false) :
    spec_walk_go (fun _ => false) size delta (fuel + 1) pos acc = acc := by
  simp [spec_walk_go, h]

lemma spec_walk_go_north (size : Coord) :
    ∀ (n fuel : Nat) (pos : Coord) (acc : Nat),
      pos.row.toNat = n → n < fuel →
      0 ≤ pos.row → pos.row < size.row → 0 ≤ pos.col → pos.col < size.col →
      spec_walk_go (fun _ => false) size ⟨-1, 0⟩ fuel pos acc = acc + n := by
  intro n
  induction n with
  | zero =>
    intro fuel pos acc h0 hf hr0 hr1 hc0 hc1
    obtain ⟨f, rfl⟩ : ∃ f, fuel = f + 1 := ⟨fuel - 1, by omega⟩
    have hstop : spec_in_grid size (pos + ⟨-1, 0⟩) = false := by
      rw [spec_in_grid_false_iff]
      simp only [Coord.add_row, Coord.add_col]
      omega
    rw [spec_walk_go_free_stop _ _ _ _ _ hstop]
    omega
  | succ n ih =>
    intro fuel pos acc h0 hf hr0 hr1 hc0 hc1
    obtain ⟨f, rfl⟩ : ∃ f, fuel = f + 1 := ⟨fuel - 1, by omega⟩
    rw [spec_walk_go_free_step, ih f (pos + ⟨-1, 0⟩) (acc + 1)
        (by simp only [Coord.add_row]; omega) (by omega)
        (by simp only [Coord.add_row]; omega) (by simp only [Coord.add_row]; omega)
        (by simp only [Coord.add_col]; omega) (by simp only [Coord.add_col]; omega)]
    · omega
    · rw [spec_in_grid_true_iff]
      refine ⟨?_, ?_, ?_, ?_⟩ <;> simp only [Coord.add_row, Coord.add_col] <;> omega

lemma spec_walk_go_south (size : Coord) :
    ∀ (n fuel : Nat) (pos : Coord) (acc : Nat),
      (size.row - 1 - pos.row).toNat = n → n < fuel →
      0 ≤ pos.row → pos.row < size.row → 0 ≤ pos.col → pos.col < size.col →
      spec_walk_go (fun _ => false) size ⟨1, 0⟩ fuel pos acc = acc + n := by
  intro n
  induction n with
  | zero =>
    intro fuel pos acc h0 hf hr0 hr1 hc0 hc1
    obtain ⟨f, rfl⟩ : ∃ f, fuel = f + 1 := ⟨fuel - 1, by omega⟩
    have hstop : spec_in_grid size (pos + ⟨1, 0⟩) = false := by
      rw [spec_in_grid_false_iff]
      simp only [Coord.add_row, Coord.add_col]
      omega
    rw [spec_walk_go_free_stop _ _ _ _ _ hstop]
    omega
  | succ n ih =>
    intro fuel pos acc h0 hf hr0 hr1 hc0 hc1
    obtain ⟨f, rfl⟩ : ∃ f, fuel = f + 1 := ⟨fuel - 1, by omega⟩
    rw [spec_walk_go_free_step, ih f (pos + ⟨1, 0⟩) (acc + 1)
        (by simp only [Coord.add_row]; omega) (by omega)
        (by simp only [Coord.add_row]; omega) (by simp only [Coord.add_row]; omega)
        (by simp only [Coord.add_col]; omega) (by simp only [Coord.add_col]; omega)]
    · omega
    · rw [spec_in_grid_true_iff]
      refine ⟨?_, ?_, ?_, ?_⟩ <;> simp only [Coord.add_row, Coord.add_col] <;> omega

lemma spec_walk_go_west (size : Coord) :
    ∀ (n fuel : Nat) (pos : Coord) (acc : Nat),
      pos.col.toNat = n → n < fuel →
      0 ≤ pos.row → pos.row < size.row → 0 ≤ pos.col → pos.col < size.col →
      spec_walk_go (fun _ => false) size ⟨0, -1⟩ fuel pos acc = acc + n := by
  intro n
  induction n with
  | zero =>
    intro fuel pos acc h0 hf hr0 hr1 hc0 hc1
    obtain ⟨f, rfl⟩ : ∃ f, fuel = f + 1 := ⟨fuel - 1, by omega⟩
    have hstop : spec_in_grid size (pos + ⟨0, -1⟩) = false := by
      rw [spec_in_grid_false_iff]
      simp only [Coord.add_row, Coord.add_col]
      omega
    rw [spec_walk_go_free_stop _ _ _ _ _ hstop]
    omega
  | succ n ih =>
    intro fuel pos acc h0 hf hr0 hr1 hc0 hc1
    obtain ⟨f, rfl⟩ : ∃ f, fuel = f + 1 := ⟨fuel - 1, by omega⟩
    rw [spec_walk_go_free_step, ih f (pos + ⟨0, -1⟩) (acc + 1)
        (by simp only [Coord.add_col]; omega) (by omega)
        (by simp only [Coord.add_row]; omega) (by simp only [Coord.add_row]; omega)
        (by simp only [Coord.add_col]; omega) (by simp only [Coord.add_col]; omega)]
    · omega
    · rw [spec_in_grid_true_iff]
      refine ⟨?_, ?_, ?_, ?_⟩ <;> simp only [Coord.add_row, Coord.add_col] <;> omega

lemma spec_walk_go_east (size : Coord) :
    ∀ (n fuel : Nat) (pos : Coord) (acc : Nat),
      (size.col - 1 - pos.col).toNat = n → n < fuel →
      0 ≤ pos.row → pos.row < size.row → 0 ≤ pos.col → pos.col < size.col →
      spec_walk_go (fun _ => false) size ⟨0, 1⟩ fuel pos acc = acc + n := by
  intro n
  induction n with
  | zero =>
    intro fuel pos acc h0 hf hr0 hr1 hc0 hc1
    obtain ⟨f, rfl⟩ : ∃ f, fuel = f + 1 := ⟨fuel - 1, by omega⟩
    have hstop : spec_in_grid size (pos + ⟨0, 1⟩) = false := by
      rw [spec_in_grid_false_iff]
      simp only [Coord.add_row, Coord.add_col]
      omega
    rw [spec_walk_go_free_stop _ _ _ _ _ hstop]
    omega
  | succ n ih =>
    intro fuel pos acc h0 hf hr0 hr1 hc0 hc1
    obtain ⟨f, rfl⟩ : ∃ f, fuel = f + 1 := ⟨fuel - 1, by omega⟩
    rw [spec_walk_go_free_step, ih f (pos + ⟨0, 1⟩) (acc + 1)
        (by simp only [Coord.add_col]; omega) (by omega)
        (by simp only [Coord.add_row]; omega) (by simp only [Coord.add_row]; omega)
        (by simp only [Coord.add_col]; omega) (by simp only [Coord.add_col]; omega)]
    · omega
    · rw [spec_in_grid_true_iff]
      refine ⟨?_, ?_, ?_, ?_⟩ <;> simp only [Coord.add_row, Coord.add_col] <;> omega

/-- On an obstruction-free grid the naive strictly-between count is the
distance to the grid edge in the walk direction. -/
lemma spec_naive_between_free (rows cols : Nat) (pos : Coord) (dir : Direction)
    (hr0 : 0 ≤ pos.row) (hr1 : pos.row < (rows : Int))
    (hc0 : 0 ≤ pos.col) (hc1 : pos.col < (cols : Int)) :
    spec_naive_between (fun _ => false) ⟨rows, cols⟩ pos dir =
      match dir with
      | .North => pos.row.toNat
      | .East => ((cols : Int) - 1 - pos.col).toNat
      | .South => ((rows : Int) - 1 - pos.row).toNat
      | .West => pos.col.toNat := by
  cases dir
  · exact (spec_walk_go_north ⟨rows, cols⟩ pos.row.toNat _ pos 0 rfl
      (by show pos.row.toNat < rows + cols + 2; omega) hr0 hr1 hc0 hc1).trans
      (Nat.zero_add _)
  · exact (spec_walk_go_east ⟨rows, cols⟩ ((cols : Int) - 1 - pos.col).toNat _ pos 0 rfl
      (by show ((cols : Int) - 1 - pos.col).toNat < rows + cols + 2; omega)
      hr0 hr1 hc0 hc1).trans (Nat.zero_add _)
  · exact (spec_walk_go_south ⟨rows, cols⟩ ((rows : Int) - 1 - pos.row).toNat _ pos 0 rfl
      (by show ((rows : Int) - 1 - pos.row).toNat < rows + cols + 2; omega)
      hr0 hr1 hc0 hc1).trans (Nat.zero_add _)
  · exact (spec_walk_go_west ⟨rows, cols⟩ pos.col.toNat _ pos 0 rfl
      (by show pos.col.toNat < rows + cols + 2; omega) hr0 hr1 hc0 hc1).trans
      (Nat.zero_add _)

end WalkLemmas

section EvalLemmas

lemma from_index_index (d : Direction) : Direction.from_index d.index = d := by
  cases d <;> rfl

lemma remaining_steps_eval (t : StepTable) (pos : Coord) (dir : Direction)
    (h : (t.steps_to_obstruction dir.index).in_bounds pos = true)
    (hv : (t.steps_to_obstruction dir.index).entry pos.row pos.col ≠ MARKER) :
    t.remaining_steps pos dir =
      .ok ((t.steps_to_obstruction dir.index).entry pos.row pos.col) := by
  simp [StepTable.remaining_steps, DMatrix.get_indexed, h, hv, Bind.bind, Except.bind,
    Pure.pure, Except.pure]

lemma remaining_steps_eval_marker (t : StepTable) (pos : Coord) (dir : Direction)
    (h : (t.steps_to_obstruction dir.index).in_bounds pos = true)
    (hv : (t.steps_to_obstruction dir.index).entry pos.row pos.col = MARKER) :
    t.remaining_steps pos dir = .error .assert_fail := by
  simp [StepTable.remaining_steps, DMatrix.get_indexed, h, hv, Bind.bind, Except.bind,
    throw, throwThe, MonadExceptOf.throw]

lemma isOk_exists {α : Type} (x : Except PanicKind α) (h : x.isOk = true) :
    ∃ v, x = .ok v := by
  cases x
  · simp [Except.isOk, Except.toBool] at h
  · exact ⟨_, rfl⟩

@[simp] lemma except_bind_ok {α β : Type} (x : α) (f : α → Except PanicKind β) :
    (Except.ok x : Except PanicKind α) >>= f = f x := rfl

@[simp] lemma except_bind_error {α β : Type} (e : PanicKind) (f : α → Except PanicKind β) :
    (Except.error e : Except PanicKind α) >>= f = Except.error e := rfl

end EvalLemmas

section AddFails

/-- The southward update loop of `add_obstruction` (backward step `(1, 0)`)
never fails from a non-negative start: the row only grows, so the first
coordinate that leaves the matrix is also rejected by `bounded_by`. -/
lemma add_write_loop_south_ok (rows cols : Nat) (pos : Coord)
    (hr0 : 0 ≤ pos.row) (hc0 : 0 ≤ pos.col) :
    ∀ (iters step : Nat) (m : DMatrix), m.nrows = rows → m.ncols = cols →
      (add_write_loop ⟨rows, cols⟩ pos ⟨1, 0⟩ step iters m).isOk = true := by
  intro iters
  induction iters with
  | zero => intro step m _ _; rfl
  | succ iters ih =>
    intro step m hm1 hm2
    rw [add_write_loop]
    by_cases hb : (pos + scale_u8 (step + 1) (⟨1, 0⟩ : Coord)).bounded_by
        (⟨rows, cols⟩ : Coord) = true
    · rw [if_pos hb]
      have hin : m.in_bounds (pos + scale_u8 (step + 1) (⟨1, 0⟩ : Coord)) = true := by
        simp only [Coord.bounded_by, Bool.and_eq_true, decide_eq_true_eq, Coord.add_row,
          Coord.add_col] at hb
        simp only [DMatrix.in_bounds, hm1, hm2, Bool.and_eq_true, decide_eq_true_eq,
          Coord.add_row, Coord.add_col]
        simp only [scale_u8] at hb ⊢
        constructor
        · constructor
          · positivity
          · exact hb.1
        · constructor
          · simpa using hc0
          · simpa using hb.2
      rw [DMatrix.set_unchecked, if_pos hin]
      exact ih (step + 1) _ (by simp [DMatrix.write, hm1]) (by simp [DMatrix.write, hm2])
    · rw [if_neg hb]
      rfl

/-- The westward update loop of `add_obstruction` (backward step `(0, −1)`)
always fails once enough iterations remain to step past column 0: the column
`−1` still passes `bounded_by`, and the unchecked write there is out of
bounds. -/
lemma add_write_loop_west_fails (rows cols : Nat) (pos : Coord)
    (hr0 : 0 ≤ pos.row) (hr1 : pos.row < (rows : Int))
    (hc0 : 0 ≤ pos.col) (hc1 : pos.col < (cols : Int)) (hcols : cols < 255) :
    ∀ (n iters step : Nat) (m : DMatrix), m.nrows = rows → m.ncols = cols →
      step + n = pos.col.toNat → n < iters →
      (add_write_loop ⟨rows, cols⟩ pos ⟨0, -1⟩ step iters m).isOk = false := by
  intro n
  induction n with
  | zero =>
    intro iters step m hm1 hm2 hsum hlt
    obtain ⟨it, rfl⟩ : ∃ it, iters = it + 1 := ⟨iters - 1, by omega⟩
    rw [add_write_loop]
    have hu : u8val (step + 1) = step + 1 := by
      have : step ≤ 253 := by omega
      simp only [u8val]
      omega
    have hb : (pos + scale_u8 (step + 1) (⟨0, -1⟩ : Coord)).bounded_by
        (⟨rows, cols⟩ : Coord) = true := by
      simp only [Coord.bounded_by, Bool.and_eq_true, decide_eq_true_eq, Coord.add_row,
        Coord.add_col, scale_u8, hu]
      constructor
      · simp
        omega
      · simp
        omega
    rw [if_pos hb]
    have hin : m.in_bounds (pos + scale_u8 (step + 1) (⟨0, -1⟩ : Coord)) = false := by
      simp only [DMatrix.in_bounds, hm1, hm2, Coord.add_row, Coord.add_col, scale_u8, hu]
      have : pos.col + (step + 1 : Nat) * (-1 : Int) < 0 := by
        push_cast
        omega
      simp only [Bool.and_eq_false_iff]
      right
      left
      simpa using this
    rw [DMatrix.set_unchecked, if_neg (by simp [hin])]
    rfl
  | succ n ih =>
    intro iters step m hm1 hm2 hsum hlt
    obtain ⟨it, rfl⟩ : ∃ it, iters = it + 1 := ⟨iters - 1, by omega⟩
    rw [add_write_loop]
    have hu : u8val (step + 1) = step + 1 := by
      have : step ≤ 253 := by omega
      simp only [u8val]
      omega
    have hb : (pos + scale_u8 (step + 1) (⟨0, -1⟩ : Coord)).bounded_by
        (⟨rows, cols⟩ : Coord) = true := by
      simp only [Coord.bounded_by, Bool.and_eq_true, decide_eq_true_eq, Coord.add_row,
        Coord.add_col, scale_u8, hu]
      constructor
      · simp
        omega
      · simp
        omega
    rw [if_pos hb]
    have hin : m.in_bounds (pos + scale_u8 (step + 1) (⟨0, -1⟩ : Coord)) = true := by
      simp only [DMatrix.in_bounds, hm1, hm2, Coord.add_row, Coord.add_col, scale_u8, hu,
        Bool.and_eq_true, decide_eq_true_eq]
      push_cast
      omega
    rw [DMatrix.set_unchecked, if_pos hin]
    exact ih _ (step + 1) _ (by simp [DMatrix.write, hm1]) (by simp [DMatrix.write, hm2])
      (by omega) (by omega)

lemma read_fresh_north_ok (rows cols : Nat) (pos : Coord)
    (hr0 : 0 ≤ pos.row) (hc0 : 0 ≤ pos.col) :
    (steps_to_existing_read (fresh_table rows cols) pos 0).isOk = true := by
  simp only [steps_to_existing_read, Direction.from_index, Direction.turn, Direction.index,
    Coord.of_direction]
  split
  · next hb =>
    have hin : ((fresh_table rows cols).steps_to_obstruction 2).in_bounds
        (pos + (⟨1, 0⟩ : Coord)) = true := by
      simp only [fresh_table, Coord.bounded_by, Bool.and_eq_true, decide_eq_true_eq,
        Coord.add_row, Coord.add_col] at hb
      simp only [fresh_table, DMatrix.in_bounds, Bool.and_eq_true, decide_eq_true_eq,
        Coord.add_row, Coord.add_col]
      omega
    simp [DMatrix.get_unchecked, hin, Except.isOk, Except.toBool]
  · rfl

lemma read_fresh_east_val (rows cols : Nat) (pos : Coord)
    (hr0 : 0 ≤ pos.row) (hr1 : pos.row < (rows : Int))
    (hc1 : 1 ≤ pos.col) (hc2 : pos.col < (cols : Int)) (hcols : cols < 255) :
    steps_to_existing_read (fresh_table rows cols) pos 1 = .ok pos.col.toNat := by
  simp only [steps_to_existing_read, Direction.from_index, Direction.turn, Direction.index,
    Coord.of_direction]
  have hb : (pos + (⟨0, -1⟩ : Coord)).bounded_by (fresh_table rows cols).room_size = true := by
    simp only [fresh_table, Coord.bounded_by, Bool.and_eq_true, decide_eq_true_eq,
      Coord.add_row, Coord.add_col]
    omega
  rw [if_pos hb]
  have hin : ((fresh_table rows cols).steps_to_obstruction 3).in_bounds
      (pos + (⟨0, -1⟩ : Coord)) = true := by
    simp only [fresh_table, DMatrix.in_bounds, Bool.and_eq_true, decide_eq_true_eq,
      Coord.add_row, Coord.add_col]
    omega
  rw [DMatrix.get_unchecked, if_pos hin]
  have hval : ((fresh_table rows cols).steps_to_obstruction 3).entry
      (pos + (⟨0, -1⟩ : Coord)).row (pos + (⟨0, -1⟩ : Coord)).col = pos.col.toNat := by
    show (((pos + (⟨0, -1⟩ : Coord)).col) + 1).toNat = pos.col.toNat
    simp only [Coord.add_col]
    omega
  rw [hval]
  have hne : ¬ (pos.col.toNat = MARKER) := by
    simp only [MARKER]
    omega
  simp [hne]

lemma read_fresh_east_oob (rows cols : Nat) (pos : Coord)
    (_hr0 : 0 ≤ pos.row) (hr1 : pos.row < (rows : Int)) (hc0 : pos.col = 0) :
    steps_to_existing_read (fresh_table rows cols) pos 1 = .error .oob_access := by
  simp only [steps_to_existing_read, Direction.from_index, Direction.turn, Direction.index,
    Coord.of_direction]
  have hb : (pos + (⟨0, -1⟩ : Coord)).bounded_by (fresh_table rows cols).room_size = true := by
    simp only [fresh_table, Coord.bounded_by, Bool.and_eq_true, decide_eq_true_eq,
      Coord.add_row, Coord.add_col]
    omega
  rw [if_pos hb]
  have hin : ((fresh_table rows cols).steps_to_obstruction 3).in_bounds
      (pos + (⟨0, -1⟩ : Coord)) = false := by
    simp only [fresh_table, DMatrix.in_bounds, Coord.add_row, Coord.add_col,
      Bool.and_eq_false_iff]
    right
    left
    simp
    omega
  rw [DMatrix.get_unchecked, if_neg (by simp [hin])]

lemma read_fresh_south_ok (rows cols : Nat) (pos : Coord)
    (hr1 : 1 ≤ pos.row) (hc0 : 0 ≤ pos.col) :
    (steps_to_existing_read (fresh_table rows cols) pos 2).isOk = true := by
  simp only [steps_to_existing_read, Direction.from_index, Direction.turn, Direction.index,
    Coord.of_direction]
  split
  · next hb =>
    have hin : ((fresh_table rows cols).steps_to_obstruction 0).in_bounds
        (pos + (⟨-1, 0⟩ : Coord)) = true := by
      simp only [fresh_table, Coord.bounded_by, Bool.and_eq_true, decide_eq_true_eq,
        Coord.add_row, Coord.add_col] at hb
      simp only [fresh_table, DMatrix.in_bounds, Bool.and_eq_true, decide_eq_true_eq,
        Coord.add_row, Coord.add_col]
      omega
    simp [DMatrix.get_unchecked, hin, Except.isOk, Except.toBool]
  · rfl

lemma read_fresh_south_oob (rows cols : Nat) (pos : Coord)
    (hr0 : pos.row = 0) (_hc0 : 0 ≤ pos.col) (hc1 : pos.col < (cols : Int)) :
    steps_to_existing_read (fresh_table rows cols) pos 2 = .error .oob_access := by
  simp only [steps_to_existing_read, Direction.from_index, Direction.turn, Direction.index,
    Coord.of_direction]
  have hb : (pos + (⟨-1, 0⟩ : Coord)).bounded_by (fresh_table rows cols).room_size = true := by
    simp only [fresh_table, Coord.bounded_by, Bool.and_eq_true, decide_eq_true_eq,
      Coord.add_row, Coord.add_col]
    omega
  rw [if_pos hb]
  have hin : ((fresh_table rows cols).steps_to_obstruction 0).in_bounds
      (pos + (⟨-1, 0⟩ : Coord)) = false := by
    simp only [fresh_table, DMatrix.in_bounds, Coord.add_row, Coord.add_col,
      Bool.and_eq_false_iff]
    left
    left
    simp
    omega
  rw [DMatrix.get_unchecked, if_neg (by simp [hin])]

lemma read_fresh_west_ok (rows cols : Nat) (pos : Coord)
    (hr0 : 0 ≤ pos.row) (hc0 : 0 ≤ pos.col) :
    (steps_to_existing_read (fresh_table rows cols) pos 3).isOk = true := by
  simp only [steps_to_existing_read, Direction.from_index, Direction.turn, Direction.index,
    Coord.of_direction]
  split
  · next hb =>
    have hin : ((fresh_table rows cols).steps_to_obstruction 1).in_bounds
        (pos + (⟨0, 1⟩ : Coord)) = true := by
      simp only [fresh_table, Coord.bounded_by, Bool.and_eq_true, decide_eq_true_eq,
        Coord.add_row, Coord.add_col] at hb
      simp only [fresh_table, DMatrix.in_bounds, Bool.and_eq_true, decide_eq_true_eq,
        Coord.add_row, Coord.add_col]
      omega
    simp [DMatrix.get_unchecked, hin, Except.isOk, Except.toBool]
  · rfl

lemma isOk_false_exists {α : Type} (x : Except PanicKind α) (h : x.isOk = false) :
    ∃ e, x = .error e := by
  cases x
  · exact ⟨_, rfl⟩
  · simp [Except.isOk, Except.toBool] at h

lemma add_update_dir_preserves (t : StepTable) (pos : Coord) (i : Fin 4) (s : Nat)
    (t' : StepTable) (h : add_update_dir t pos i s = .ok t') :
    t'.room_size = t.room_size ∧
      ∀ j, j ≠ i → t'.steps_to_obstruction j = t.steps_to_obstruction j := by
  unfold add_update_dir at h
  by_cases hm : s = MARKER
  · rw [if_pos hm] at h
    cases h
    exact ⟨rfl, fun j _ => rfl⟩
  · rw [if_neg hm] at h
    simp only [] at h
    split at h
    · exact Except.noConfusion h
    · cases h
      exact ⟨rfl, fun j hj => by simp [StepTable.set_mat, hj]⟩

lemma add_update_dir_north_ok (rows cols : Nat) (t : StepTable) (pos : Coord) (s : Nat)
    (hroom : t.room_size = ⟨rows, cols⟩)
    (hm1 : (t.steps_to_obstruction 0).nrows = rows)
    (hm2 : (t.steps_to_obstruction 0).ncols = cols)
    (hr0 : 0 ≤ pos.row) (hc0 : 0 ≤ pos.col) :
    (add_update_dir t pos 0 s).isOk = true := by
  by_cases hsM : s = MARKER
  · simp [add_update_dir, hsM, Except.isOk, Except.toBool]
  · obtain ⟨m, hm⟩ := isOk_exists _
      (add_write_loop_south_ok rows cols pos hr0 hc0 (s + 1) 0 (t.steps_to_obstruction 0)
        hm1 hm2)
    simp only [add_update_dir, if_neg hsM, Direction.from_index, Direction.turn,
      Coord.of_direction, hroom]
    rw [hm]
    rfl

lemma add_update_dir_east_fails (rows cols : Nat) (t : StepTable) (pos : Coord)
    (hroom : t.room_size = ⟨rows, cols⟩)
    (hm1 : (t.steps_to_obstruction 1).nrows = rows)
    (hm2 : (t.steps_to_obstruction 1).ncols = cols)
    (hr0 : 0 ≤ pos.row) (hr1 : pos.row < (rows : Int))
    (hc1 : 1 ≤ pos.col) (hc2 : pos.col < (cols : Int)) (hcols : cols < 255) :
    (add_update_dir t pos 1 pos.col.toNat).isOk = false := by
  have hsM : ¬ (pos.col.toNat = MARKER) := by
    simp only [MARKER]
    omega
  obtain ⟨e, he⟩ := isOk_false_exists _
    (add_write_loop_west_fails rows cols pos hr0 hr1 (by omega) hc2 hcols
      pos.col.toNat (pos.col.toNat + 1) 0 (t.steps_to_obstruction 1) hm1 hm2
      (by omega) (by omega))
  simp only [add_update_dir, if_neg hsM, Direction.from_index, Direction.turn,
    Coord.of_direction, hroom]
  rw [he]
  rfl

/-- Every insertion of an in-bounds obstruction into a fresh table performs
an out-of-bounds unchecked access: positions on row 0 or column 0 fail in
the backward read pass, and all others fail when the East-direction update
loop runs past column 0 (the fresh row holds no obstruction to stop it). -/
lemma fresh_add_fails (rows cols : Nat) (hcols : cols < 255) (pos : Coord)
    (hr0 : 0 ≤ pos.row) (hr1 : pos.row < (rows : Int))
    (hc0 : 0 ≤ pos.col) (hc1 : pos.col < (cols : Int)) :
    ((fresh_table rows cols).add_obstruction pos).isOk = false := by
  by_cases hc : pos.col = 0
  · obtain ⟨v0, hv0⟩ := isOk_exists _ (read_fresh_north_ok rows cols pos hr0 hc0)
    have h1 := read_fresh_east_oob rows cols pos hr0 hr1 hc
    simp only [StepTable.add_obstruction, hv0, h1, except_bind_ok, except_bind_error]
    rfl
  · have hcge : 1 ≤ pos.col := by omega
    obtain ⟨v0, hv0⟩ := isOk_exists _ (read_fresh_north_ok rows cols pos hr0 hc0)
    have hv1 := read_fresh_east_val rows cols pos hr0 hr1 hcge hc1 hcols
    by_cases hr : pos.row = 0
    · have h2 := read_fresh_south_oob rows cols pos hr hc0 hc1
      simp only [StepTable.add_obstruction, hv0, hv1, h2, except_bind_ok,
        except_bind_error]
      rfl
    · have hrge : 1 ≤ pos.row := by omega
      obtain ⟨v2, hv2⟩ := isOk_exists _ (read_fresh_south_ok rows cols pos hrge hc0)
      obtain ⟨v3, hv3⟩ := isOk_exists _ (read_fresh_west_ok rows cols pos hr0 hc0)
      obtain ⟨t1, ht1⟩ := isOk_exists _
        (add_update_dir_north_ok rows cols (fresh_table rows cols) pos v0 rfl rfl rfl hr0 hc0)
      obtain ⟨hroom1, hsteps1⟩ := add_update_dir_preserves _ _ _ _ _ ht1
      have hfail := add_update_dir_east_fails rows cols t1 pos
        (by rw [hroom1]; rfl) (by rw [hsteps1 1 (by decide)]; rfl)
        (by rw [hsteps1 1 (by decide)]; rfl)
        hr0 hr1 hcge hc1 hcols
      obtain ⟨e, he⟩ := isOk_false_exists _ hfail
      simp only [StepTable.add_obstruction, hv0, hv1, hv2, hv3, ht1, he,
        except_bind_ok, except_bind_error]
      rfl

end AddFails

/-- **C1** (corrected).  The spec claims `remaining_steps(c, d)` equals the
count of free cells strictly between `c` and the next obstruction or
boundary.  The second conjunct proves the only table buildable through
`add_obstruction` is the fresh one: every insertion of an in-bounds
obstruction into a fresh table fails with an out-of-bounds unchecked
access (the `bounded_by` slip of `c2`/`c3`).  On that fresh table the
stored value in the (always) boundary-terminated case is the naive count
**plus one**: the table deliberately stores the number of steps that takes
the guard out of the map. -/
theorem c1_remaining_steps_fresh (rows cols : Nat) (h1 : rows < 255) (h2 : cols < 255)
    (pos : Coord) (dir : Direction)
    (hr0 : 0 ≤ pos.row) (hr1 : pos.row < (rows : Int))
    (hc0 : 0 ≤ pos.col) (hc1 : pos.col < (cols : Int)) :
    StepTable.new rows cols = .ok (fresh_table rows cols) ∧
    ((fresh_table rows cols).add_obstruction pos).isOk = false ∧
    (fresh_table rows cols).remaining_steps pos dir =
      .ok (spec_naive_between (fun _ => false) ⟨rows, cols⟩ pos dir + 1) := by
  refine ⟨?_, fresh_add_fails rows cols h2 pos hr0 hr1 hc0 hc1, ?_⟩
  · simp [StepTable.new, MARKER, h1, h2]
  · have hin : ((fresh_table rows cols).steps_to_obstruction dir.index).in_bounds pos
        = true := by
      simp only [fresh_table, DMatrix.in_bounds, Bool.and_eq_true, decide_eq_true_eq]
      exact ⟨⟨hr0, hr1⟩, hc0, hc1⟩
    have hentry : ((fresh_table rows cols).steps_to_obstruction dir.index).entry
        pos.row pos.col =
        spec_naive_between (fun _ => false) ⟨rows, cols⟩ pos dir + 1 := by
      rw [spec_naive_between_free rows cols pos dir hr0 hr1 hc0 hc1]
      cases dir
      · show (pos.row + 1).toNat = pos.row.toNat + 1
        omega
      · show ((cols : Int) - pos.col).toNat = ((cols : Int) - 1 - pos.col).toNat + 1
        omega
      · show ((rows : Int) - pos.row).toNat = ((rows : Int) - 1 - pos.row).toNat + 1
        omega
      · show (pos.col + 1).toNat = pos.col.toNat + 1
        omega
    have hub : spec_naive_between (fun _ => false) ⟨rows, cols⟩ pos dir + 1 ≠ MARKER := by
      rw [spec_naive_between_free rows cols pos dir hr0 hr1 hc0 hc1]
      simp only [MARKER]
      cases dir
      · show pos.row.toNat + 1 ≠ 255
        omega
      · show ((cols : Int) - 1 - pos.col).toNat + 1 ≠ 255
        omega
      · show ((rows : Int) - 1 - pos.row).toNat + 1 ≠ 255
        omega
      · show pos.col.toNat + 1 ≠ 255
        omega
    rw [remaining_steps_eval _ _ _ hin (by rw [hentry]; exact hub), hentry]

/-- Witness for `c1_remaining_steps_fresh` at a concrete instance. -/
theorem c1_remaining_steps_fresh_witness :
    StepTable.new 2 3 = .ok (fresh_table 2 3) ∧
    ((fresh_table 2 3).add_obstruction ⟨1, 1⟩).isOk = false ∧
    (fresh_table 2 3).remaining_steps ⟨1, 1⟩ .East =
      .ok (spec_naive_between (fun _ => false) ⟨2, 3⟩ ⟨1, 1⟩ .East + 1) :=
  c1_remaining_steps_fresh 2 3 (by decide) (by decide) ⟨1, 1⟩ .East
    (by decide) (by decide) (by decide) (by decide)

/-- **C1** counterexample: on the fresh 1×1 table (zero obstructions added,
which is within the claim's scope), `remaining_steps((0,0), North)` is 1,
while the count of free cells strictly between `(0,0)` and the northern
boundary is 0, so the claim's equality fails. -/
theorem c1_strict_between_counterexample :
    StepTable.new 1 1 = .ok (fresh_table 1 1) ∧
    (fresh_table 1 1).remaining_steps ⟨0, 0⟩ .North = .ok 1 ∧
    spec_naive_between (fun _ => false) ⟨1, 1⟩ ⟨0, 0⟩ .North = 0 := by
  refine ⟨rfl, ?_, by decide⟩
  rfl

/-- **C2** (code bug).  The add/remove round trip cannot restore the state
because `add_obstruction` itself crashes: on a fresh 2×2 table the cell
`(1, 1)` is free and in bounds, yet inserting an obstruction there performs
an out-of-bounds unchecked write (the East-direction update walks to column
−1, which `bounded_by` fails to reject), so the sequence
add → remove never reaches its end and no state is restored. -/
theorem c2_add_remove_roundtrip_crash :
    (fresh_table 2 2).is_obstructed ⟨1, 1⟩ = .ok false ∧
    (fresh_table 2 2).add_obstruction ⟨1, 1⟩ = .error .oob_access := ⟨rfl, rfl⟩

/-- **C3** (code bug).  `bounded_by` accepts coordinates with a negative
component (it only compares the upper bounds), the corresponding matrix
access is out of bounds, and `add_obstruction` reaches exactly that
combination: on a fresh 3×3 table, adding at `(2, 2)` drives the
East-direction update loop to `(2, −1)`, which passes `bounded_by` and is
then written through `get_unchecked_mut` outside the matrix. -/
theorem c3_unchecked_write_out_of_bounds :
    Coord.bounded_by ⟨2, -1⟩ ⟨3, 3⟩ = true ∧
    ((fresh_table 3 3).steps_to_obstruction 1).in_bounds ⟨2, -1⟩ = false ∧
    (fresh_table 3 3).add_obstruction ⟨2, 2⟩ = .error .oob_access := ⟨rfl, rfl, rfl⟩

/-- **C4** (code bug).  On the 1×1 obstruction-free grid the naive reference
simulation gives a visited count of 1 (the guard steps off the northern edge
immediately), while the StepTable-driven slow walk lets the guard's position
go to `(−1, 0)`, which `bounded_by` accepts, and then performs an
out-of-bounds access on the visited matrix instead of returning a count. -/
theorem c4_slow_walk_crash_vs_reference :
    part_a 5 [['^']] = some (.error .oob_access) ∧
    spec_visited_count [['^']] = some 1 := ⟨rfl, rfl⟩

/-- **C5** (code bug).  Exit detection does not take precedence on the
northern/western edges: `advance_guard_fast` returns the off-grid state
`((−1, 0), East)` as a *continue* (not an escape), and the Brent loop then
feeds that state back into `remaining_steps`, which panics on the bounds
check instead of reporting "no loop". -/
theorem c5_offgrid_state_not_escape :
    ∃ p : Problem, problem_from_lines [['^']] = .ok p ∧
      advance_guard_fast p p.step_table p.guard = .ok (some ⟨⟨-1, 0⟩, .East⟩) ∧
      spec_in_grid p.room_size ⟨-1, 0⟩ = false ∧
      brent_cycle_detection 5 p p.step_table = some (.error .index_panic) :=
  ⟨_, rfl, rfl, rfl, rfl⟩

/-- **C6** counterexample: a single-obstruction probe (the exact
assert → add → fast-walk → remove sequence of `part_b`) on a 2×2 grid
terminates with an out-of-bounds failure inside `add_obstruction` — neither
loop-detected nor escape. -/
theorem c6_probe_neither_loop_nor_escape :
    ∃ p : Problem, problem_from_lines [['.', '.'], ['^', '.']] = .ok p ∧
      probe_cell 5 p p.step_table ⟨0, 1⟩ = some (.error .oob_access) :=
  ⟨_, rfl, rfl⟩

/-- **C7** (code bug).  On the classic 10×10 example grid the source's own
tests assert `part_a = 41` and `part_b = 6`, and the naive reference
simulation indeed visits 41 cells; but building the `StepTable` already
performs an out-of-bounds unchecked access while inserting the very first
obstruction `(0, 4)` (the South-direction read probes `(−1, 4)`, which
`bounded_by` accepts), so both entry points fail instead of returning the
asserted values. -/
theorem c7_example_build_out_of_bounds :
    step_table_from_lines example_lines = .error .oob_access ∧
    part_a 1 example_lines = some (.error .oob_access) ∧
    part_b 1 example_lines = some (.error .oob_access) ∧
    spec_visited_count example_lines = some 41 :=
  ⟨rfl, rfl, rfl, by set_option maxRecDepth 100000 in decide⟩

/-- **C8** (code bug).  With the guard adjacent to the (northern) edge and
facing outward on an obstruction-free 1×2 grid, the spec expects
`part_a = 1` and `part_b = 0` (the naive reference indeed visits exactly the
start cell); the code instead walks the guard to `(−1, 0)`, which
`bounded_by` accepts, and crashes with an out-of-bounds access in both entry
points. -/
theorem c8_edge_outward_guard_crash :
    part_a 5 [['^', '.']] = some (.error .oob_access) ∧
    part_b 5 [['^', '.']] = some (.error .oob_access) ∧
    spec_visited_count [['^', '.']] = some 1 := ⟨rfl, rfl, rfl⟩

/-- **C10** (code bug).  `Guard::from_str` decodes the flat index of `'^'` as
`(index / cols, index % rows)`; the modulus should be `cols`.  On the 3×2
grid with the start symbol at row 1, column 1 (flat index 3), the parsed
guard sits at `(1, 0)` while the grid's start symbol is at `(1, 1)` (the
spec-level locator `spec_guard_pos` returns the true position). -/
theorem c10_guard_parse_col_bug :
    guard_from_lines [['.', '.'], ['.', '^'], ['.', '.']] =
      .ok ⟨⟨1, 0⟩, .North⟩ ∧
    spec_guard_pos [['.', '.'], ['.', '^'], ['.', '.']] = some ⟨1, 1⟩ := ⟨rfl, by decide⟩

section RemoveLemmas

lemma remove_info_not_sentinel (t : StepTable) (pos : Coord) (i : Fin 4)
    (hin : (t.steps_to_obstruction i).in_bounds pos = true)
    (h : (t.steps_to_obstruction i).entry pos.row pos.col ≠ MARKER) :
    remove_info t pos i = .error .assert_fail := by
  simp [remove_info, DMatrix.get_indexed, hin, h, throw, throwThe, MonadExceptOf.throw]

lemma remove_info_sentinel_north (t : StepTable) (R C : Nat) (pos : Coord)
    (hnr : ∀ j, (t.steps_to_obstruction j).nrows = R)
    (hnc : ∀ j, (t.steps_to_obstruction j).ncols = C)
    (hroom : t.room_size = ⟨R, C⟩)
    (hr1 : 1 ≤ pos.row) (hr2 : pos.row < (R : Int))
    (hc1 : 1 ≤ pos.col) (hc2 : pos.col < (C : Int))
    (h : (t.steps_to_obstruction 0).entry pos.row pos.col = MARKER) :
    (remove_info t pos 0).isOk = true := by
  have hin : (t.steps_to_obstruction 0).in_bounds pos = true := by
    simp only [DMatrix.in_bounds, hnr, hnc, Bool.and_eq_true, decide_eq_true_eq]
    omega
  have hb : (pos + (⟨-1, 0⟩ : Coord)).bounded_by t.room_size = true := by
    simp only [Coord.bounded_by, hroom, Coord.add_row, Coord.add_col,
      Bool.and_eq_true, decide_eq_true_eq]
    constructor <;> omega
  have hin2 : (t.steps_to_obstruction 0).in_bounds (pos + (⟨-1, 0⟩ : Coord)) = true := by
    simp only [DMatrix.in_bounds, hnr, hnc, Coord.add_row, Coord.add_col,
      Bool.and_eq_true, decide_eq_true_eq]
    omega
  simp [remove_info, DMatrix.get_indexed, hin, h, Direction.from_index, Direction.turn,
    Coord.of_direction, hb, hin2, DMatrix.get_unchecked, Functor.map, Except.map,
    Pure.pure, Except.pure, Except.isOk, Except.toBool]

lemma remove_info_sentinel_east (t : StepTable) (R C : Nat) (pos : Coord)
    (hnr : ∀ j, (t.steps_to_obstruction j).nrows = R)
    (hnc : ∀ j, (t.steps_to_obstruction j).ncols = C)
    (hroom : t.room_size = ⟨R, C⟩)
    (hr1 : 1 ≤ pos.row) (hr2 : pos.row < (R : Int))
    (hc1 : 1 ≤ pos.col) (hc2 : pos.col < (C : Int))
    (h : (t.steps_to_obstruction 1).entry pos.row pos.col = MARKER) :
    (remove_info t pos 1).isOk = true := by
  have hin : (t.steps_to_obstruction 1).in_bounds pos = true := by
    simp only [DMatrix.in_bounds, hnr, hnc, Bool.and_eq_true, decide_eq_true_eq]
    omega
  by_cases hcc : pos.col + 1 < (C : Int)
  · have hb : (pos + (⟨0, 1⟩ : Coord)).bounded_by t.room_size = true := by
      simp only [Coord.bounded_by, hroom, Coord.add_row, Coord.add_col,
        Bool.and_eq_true, decide_eq_true_eq]
      constructor <;> omega
    have hin2 : (t.steps_to_obstruction 1).in_bounds (pos + (⟨0, 1⟩ : Coord)) = true := by
      simp only [DMatrix.in_bounds, hnr, hnc, Coord.add_row, Coord.add_col,
        Bool.and_eq_true, decide_eq_true_eq]
      omega
    simp [remove_info, DMatrix.get_indexed, hin, h, Direction.from_index, Direction.turn,
      Coord.of_direction, hb, hin2, DMatrix.get_unchecked, Functor.map, Except.map,
      Pure.pure, Except.pure, Except.isOk, Except.toBool]
  · have hb : (pos + (⟨0, 1⟩ : Coord)).bounded_by t.room_size = false := by
      simp only [Coord.bounded_by, hroom, Coord.add_row, Coord.add_col]
      simp [hcc]
    simp [remove_info, DMatrix.get_indexed, hin, h, Direction.from_index, Direction.turn,
      Coord.of_direction, hb, Functor.map, Except.map, Pure.pure, Except.pure,
      Except.isOk, Except.toBool]

lemma remove_info_sentinel_south (t : StepTable) (R C : Nat) (pos : Coord)
    (hnr : ∀ j, (t.steps_to_obstruction j).nrows = R)
    (hnc : ∀ j, (t.steps_to_obstruction j).ncols = C)
    (hroom : t.room_size = ⟨R, C⟩)
    (hr1 : 1 ≤ pos.row) (hr2 : pos.row < (R : Int))
    (hc1 : 1 ≤ pos.col) (hc2 : pos.col < (C : Int))
    (h : (t.steps_to_obstruction 2).entry pos.row pos.col = MARKER) :
    (remove_info t pos 2).isOk = true := by
  have hin : (t.steps_to_obstruction 2).in_bounds pos = true := by
    simp only [DMatrix.in_bounds, hnr, hnc, Bool.and_eq_true, decide_eq_true_eq]
    omega
  by_cases hrr : pos.row + 1 < (R : Int)
  · have hb : (pos + (⟨1, 0⟩ : Coord)).bounded_by t.room_size = true := by
      simp only [Coord.bounded_by, hroom, Coord.add_row, Coord.add_col,
        Bool.and_eq_true, decide_eq_true_eq]
      constructor <;> omega
    have hin2 : (t.steps_to_obstruction 2).in_bounds (pos + (⟨1, 0⟩ : Coord)) = true := by
      simp only [DMatrix.in_bounds, hnr, hnc, Coord.add_row, Coord.add_col,
        Bool.and_eq_true, decide_eq_true_eq]
      omega
    simp [remove_info, DMatrix.get_indexed, hin, h, Direction.from_index, Direction.turn,
      Coord.of_direction, hb, hin2, DMatrix.get_unchecked, Functor.map, Except.map,
      Pure.pure, Except.pure, Except.isOk, Except.toBool]
  · have hb : (pos + (⟨1, 0⟩ : Coord)).bounded_by t.room_size = false := by
      simp only [Coord.bounded_by, hroom, Coord.add_row, Coord.add_col]
      simp [hrr]
    simp [remove_info, DMatrix.get_indexed, hin, h, Direction.from_index, Direction.turn,
      Coord.of_direction, hb, Functor.map, Except.map, Pure.pure, Except.pure,
      Except.isOk, Except.toBool]

lemma remove_info_sentinel_west (t : StepTable) (R C : Nat) (pos : Coord)
    (hnr : ∀ j, (t.steps_to_obstruction j).nrows = R)
    (hnc : ∀ j, (t.steps_to_obstruction j).ncols = C)
    (hroom : t.room_size = ⟨R, C⟩)
    (hr1 : 1 ≤ pos.row) (hr2 : pos.row < (R : Int))
    (hc1 : 1 ≤ pos.col) (hc2 : pos.col < (C : Int))
    (h : (t.steps_to_obstruction 3).entry pos.row pos.col = MARKER) :
    (remove_info t pos 3).isOk = true := by
  have hin : (t.steps_to_obstruction 3).in_bounds pos = true := by
    simp only [DMatrix.in_bounds, hnr, hnc, Bool.and_eq_true, decide_eq_true_eq]
    omega
  have hb : (pos + (⟨0, -1⟩ : Coord)).bounded_by t.room_size = true := by
    simp only [Coord.bounded_by, hroom, Coord.add_row, Coord.add_col,
      Bool.and_eq_true, decide_eq_true_eq]
    constructor <;> omega
  have hin2 : (t.steps_to_obstruction 3).in_bounds (pos + (⟨0, -1⟩ : Coord)) = true := by
    simp only [DMatrix.in_bounds, hnr, hnc, Coord.add_row, Coord.add_col,
      Bool.and_eq_true, decide_eq_true_eq]
    omega
  simp [remove_info, DMatrix.get_indexed, hin, h, Direction.from_index, Direction.turn,
    Coord.of_direction, hb, hin2, DMatrix.get_unchecked, Functor.map, Except.map,
    Pure.pure, Except.pure, Except.isOk, Except.toBool]

end RemoveLemmas

/-- **C9** (corrected).  For an in-bounds position, `remaining_steps` fails
its assertion exactly when the cell carries the sentinel.  For
`remove_obstruction` the original claim only survives away from the first
row and first column: there (and only via its assertions) it fails exactly
when some matrix lacks the sentinel, and on a fully sentinel-marked cell it
succeeds; on the first row/column an out-of-bounds unchecked read preempts
the remaining assertions (see `c9_oob_preempts_assertion`). -/
theorem c9_failure_characterization :
    (∀ (t : StepTable) (pos : Coord) (dir : Direction),
      (t.steps_to_obstruction dir.index).in_bounds pos = true →
      (t.remaining_steps pos dir = .error .assert_fail ↔
        (t.steps_to_obstruction dir.index).entry pos.row pos.col = MARKER)) ∧
    (∀ (t : StepTable) (R C : Nat) (pos : Coord),
      (∀ i, (t.steps_to_obstruction i).nrows = R) →
      (∀ i, (t.steps_to_obstruction i).ncols = C) →
      t.room_size = ⟨R, C⟩ →
      1 ≤ pos.row → pos.row < (R : Int) → 1 ≤ pos.col → pos.col < (C : Int) →
      ((t.remove_obstruction pos = .error .assert_fail ↔
        ¬ ∀ i : Fin 4, (t.steps_to_obstruction i).entry pos.row pos.col = MARKER) ∧
       ((∀ i : Fin 4, (t.steps_to_obstruction i).entry pos.row pos.col = MARKER) →
        ∃ t', t.remove_obstruction pos = .ok t'))) := by
  constructor
  · intro t pos dir hin
    constructor
    · intro herr
      by_contra hne
      rw [remaining_steps_eval t pos dir hin hne] at herr
      exact absurd herr (by simp)
    · intro hm
      exact remaining_steps_eval_marker t pos dir hin hm
  · intro t R C pos hnr hnc hroom hr1 hr2 hc1 hc2
    have hin : ∀ i : Fin 4, (t.steps_to_obstruction i).in_bounds pos = true := by
      intro i
      simp only [DMatrix.in_bounds, hnr, hnc, Bool.and_eq_true, decide_eq_true_eq]
      omega
    by_cases h0 : (t.steps_to_obstruction 0).entry pos.row pos.col = MARKER
    · obtain ⟨v0, hv0⟩ := isOk_exists _
        (remove_info_sentinel_north t R C pos hnr hnc hroom hr1 hr2 hc1 hc2 h0)
      by_cases h1 : (t.steps_to_obstruction 1).entry pos.row pos.col = MARKER
      · obtain ⟨v1, hv1⟩ := isOk_exists _
          (remove_info_sentinel_east t R C pos hnr hnc hroom hr1 hr2 hc1 hc2 h1)
        by_cases h2 : (t.steps_to_obstruction 2).entry pos.row pos.col = MARKER
        · obtain ⟨v2, hv2⟩ := isOk_exists _
            (remove_info_sentinel_south t R C pos hnr hnc hroom hr1 hr2 hc1 hc2 h2)
          by_cases h3 : (t.steps_to_obstruction 3).entry pos.row pos.col = MARKER
          · obtain ⟨v3, hv3⟩ := isOk_exists _
              (remove_info_sentinel_west t R C pos hnr hnc hroom hr1 hr2 hc1 hc2 h3)
            have hok : t.remove_obstruction pos = .ok
                (remove_update_dir (remove_update_dir (remove_update_dir
                  (remove_update_dir t pos 0 v0) pos 1 v1) pos 2 v2) pos 3 v3) := by
              simp [StepTable.remove_obstruction, hv0, hv1, hv2, hv3, Pure.pure,
                Except.pure]
            constructor
            · rw [hok]
              constructor
              · intro hcontra
                exact absurd hcontra (by simp)
              · intro hall
                exact absurd (fun i => by fin_cases i <;> assumption) hall
            · intro _
              exact ⟨_, hok⟩
          · have herr : t.remove_obstruction pos = .error .assert_fail := by
              simp [StepTable.remove_obstruction, hv0, hv1, hv2,
                remove_info_not_sentinel t pos 3 (hin 3) h3]
            exact ⟨by rw [herr]; exact ⟨fun _ hall => h3 (hall 3), fun _ => rfl⟩,
              fun hall => absurd (hall 3) h3⟩
        · have herr : t.remove_obstruction pos = .error .assert_fail := by
            simp [StepTable.remove_obstruction, hv0, hv1,
              remove_info_not_sentinel t pos 2 (hin 2) h2]
          exact ⟨by rw [herr]; exact ⟨fun _ hall => h2 (hall 2), fun _ => rfl⟩,
            fun hall => absurd (hall 2) h2⟩
      · have herr : t.remove_obstruction pos = .error .assert_fail := by
          simp [StepTable.remove_obstruction, hv0,
            remove_info_not_sentinel t pos 1 (hin 1) h1]
        exact ⟨by rw [herr]; exact ⟨fun _ hall => h1 (hall 1), fun _ => rfl⟩,
          fun hall => absurd (hall 1) h1⟩
    · have herr : t.remove_obstruction pos = .error .assert_fail := by
        simp [StepTable.remove_obstruction,
          remove_info_not_sentinel t pos 0 (hin 0) h0]
      exact ⟨by rw [herr]; exact ⟨fun _ hall => h0 (hall 0), fun _ => rfl⟩,
        fun hall => absurd (hall 0) h0⟩

/-- Witness for `c9_failure_characterization` at a concrete table with the
sentinel at `(1, 1)` of a 3×3 grid. -/
theorem c9_failure_characterization_witness :
    (sentinel_table_3_3.remaining_steps ⟨1, 1⟩ .North = .error .assert_fail ↔
      (sentinel_table_3_3.steps_to_obstruction Direction.North.index).entry 1 1 = MARKER) ∧
    (∃ t', sentinel_table_3_3.remove_obstruction ⟨1, 1⟩ = .ok t') :=
  ⟨c9_failure_characterization.1 sentinel_table_3_3 ⟨1, 1⟩ .North (by decide),
   (c9_failure_characterization.2 sentinel_table_3_3 3 3 ⟨1, 1⟩ (fun _ => rfl) (fun _ => rfl)
      rfl (by decide) (by decide) (by decide) (by decide)).2 (fun i => by fin_cases i <;> rfl)⟩

/-- **C9** counterexample: on `mixed_sentinel_table`, the cell `(0, 1)` is
*not* sentinel-marked in all four matrices (its East entry is 1), yet
`remove_obstruction (0, 1)` does not fail through an assertion: the
North-direction pass performs an out-of-bounds unchecked read at `(−1, 1)`
first, so the "fails its assertion iff not all four sentinel" equivalence
and the "no other failure path" clause are both false. -/
theorem c9_oob_preempts_assertion :
    (mixed_sentinel_table.steps_to_obstruction 1).entry 0 1 ≠ MARKER ∧
    mixed_sentinel_table.remove_obstruction ⟨0, 1⟩ = .error .oob_access :=
  ⟨by decide, rfl⟩

/-! Termination of the Brent cycle-detection loop (claim C6).  The proof-side
semantics below iterates `advance_guard_fast` as a total step function on an
absorbing state space and relates the loop's tortoise/hare bookkeeping to the
iteration indices. -/

/-- Absorbing trajectory state of the fast walk. -/
inductive FastWalk : Type where
  | running : Guard → FastWalk
  | escaped : FastWalk
  | crashed : PanicKind → FastWalk
deriving DecidableEq

/-- One trajectory step (absorbing on `escaped`/`crashed`). -/
def fw_step (p : Problem) (t : StepTable) : FastWalk → FastWalk
  | .running g =>
    match advance_guard_fast p t g with
    | .error e => .crashed e
    | .ok none => .escaped
    | .ok (some g') => .running g'
  | s => s

/-- The fast-walk trajectory from a start guard. -/
def fw (p : Problem) (t : StepTable) (g0 : Guard) : Nat → FastWalk
  | 0 => .running g0
  | n + 1 => fw_step p t (fw p t g0 n)

/-- The guard at a trajectory index (junk once the walk has stopped). -/
def fw_guard (p : Problem) (t : StepTable) (g0 : Guard) (n : Nat) : Guard :=
  match fw p t g0 n with
  | .running g => g
  | _ => default

def is_running : FastWalk → Bool
  | .running _ => true
  | _ => false

/-- The loop state `(power, lambda, tortoise index)` of
`_brent_cycle_detection` before its `c`-th equality comparison (at which the
hare is the `c + 1`-st iterate). -/
def brent_sched : Nat → Nat × Nat × Nat
  | 0 => (1, 1, 0)
  | c + 1 =>
    let s := brent_sched c
    if s.1 = s.2.1 then (s.1 * 2, 1, c + 1) else (s.1, s.2.1 + 1, s.2.2)

/-- Configurations from which the Brent loop provably reaches a verdict. -/
inductive brent_done (p : Problem) (t : StepTable) : Nat → Nat → Guard → Guard → Prop where
  | eq_case : ∀ {power lam tort hare}, tort = hare → brent_done p t power lam tort hare
  | halt_case : ∀ {power lam tort hare}, tort ≠ hare →
      (∀ g', advance_guard_fast p t hare ≠ .ok (some g')) →
      brent_done p t power lam tort hare
  | cont_case : ∀ {power lam tort hare g'}, tort ≠ hare →
      advance_guard_fast p t hare = .ok (some g') →
      brent_done p t (if power = lam then power * 2 else power)
        ((if power = lam then 0 else lam) + 1)
        (if power = lam then hare else tort) g' →
      brent_done p t power lam tort hare

lemma brent_done_fuel (p : Problem) (t : StepTable) {power lam : Nat} {tort hare : Guard}
    (h : brent_done p t power lam tort hare) :
    ∃ n r, brent_go p t n power lam tort hare = some r := by
  induction h with
  | eq_case heq => exact ⟨1, .ok true, by simp [brent_go, heq]⟩
  | @halt_case power lam tort hare hne hterm =>
    rcases ha : advance_guard_fast p t hare with e | og
    · exact ⟨1, .error e, by simp [brent_go, hne, ha]⟩
    · rcases og with _ | g'
      · exact ⟨1, .ok false, by simp [brent_go, hne, ha]⟩
      · exact absurd ha (hterm g')
  | @cont_case power lam tort hare g' hne hstep _ ih =>
    obtain ⟨n, r, hn⟩ := ih
    refine ⟨n + 1, r, ?_⟩
    by_cases hpl : power = lam
    · simpa [brent_go, hne, hstep, hpl] using hn
    · simpa [brent_go, hne, hstep, hpl] using hn

/-- Within phase `k`, the tortoise sits at iterate `2^k − 1`, the power is
`2^k`, and lambda counts `1 + j` for `j < 2^k`. -/
lemma brent_sched_in_phase : ∀ k j, j < 2 ^ k →
    brent_sched (2 ^ k - 1 + j) = (2 ^ k, 1 + j, 2 ^ k - 1) := by
  intro k
  induction k with
  | zero =>
    intro j hj
    interval_cases j
    rfl
  | succ k ih =>
    have he : 1 ≤ 2 ^ k := Nat.one_le_two_pow
    have hlast : brent_sched (2 ^ (k + 1) - 2) = (2 ^ k, 2 ^ k, 2 ^ k - 1) := by
      have h1 := ih (2 ^ k - 1) (by omega)
      have h2 : 2 ^ k - 1 + (2 ^ k - 1) = 2 ^ (k + 1) - 2 := by
        have : 2 ^ (k + 1) = 2 * 2 ^ k := by ring
        omega
      have h3 : 1 + (2 ^ k - 1) = 2 ^ k := by omega
      rw [h2, h3] at h1
      exact h1
    have hbase : brent_sched (2 ^ (k + 1) - 1) = (2 ^ (k + 1), 1, 2 ^ (k + 1) - 1) := by
      have he1 : 1 ≤ 2 ^ (k + 1) := Nat.one_le_two_pow
      have h4 : 2 ^ (k + 1) - 1 = (2 ^ (k + 1) - 2) + 1 := by
        have : 2 ^ (k + 1) = 2 * 2 ^ k := by ring
        omega
      rw [h4]
      simp only [brent_sched, hlast]
      have : 2 ^ (k + 1) = 2 ^ k * 2 := by ring
      simp [this]
    intro j
    induction j with
    | zero =>
      intro _
      simpa using hbase
    | succ j ihj =>
      intro hj
      have hprev := ihj (by omega)
      have h5 : 2 ^ (k + 1) - 1 + (j + 1) = (2 ^ (k + 1) - 1 + j) + 1 := by omega
      rw [h5]
      simp only [brent_sched, hprev]
      have h6 : ¬ (2 ^ (k + 1) = 1 + j) := by omega
      simp only [h6, if_false]
      have h7 : 1 + (j + 1) = 1 + j + 1 := by omega
      rw [h7]

section Trajectory

variable (p : Problem) (t : StepTable) (g0 : Guard)

lemma running_eq (n : Nat) (h : is_running (fw p t g0 n) = true) :
    fw p t g0 n = .running (fw_guard p t g0 n) := by
  cases hF : fw p t g0 n with
  | running g => simp [fw_guard, hF]
  | escaped => rw [hF] at h; simp [is_running] at h
  | crashed e => rw [hF] at h; simp [is_running] at h

lemma fw_running_succ (n : Nat) (g' : Guard)
    (h : fw p t g0 (n + 1) = .running g') :
    fw p t g0 n = .running (fw_guard p t g0 n) ∧
      advance_guard_fast p t (fw_guard p t g0 n) = .ok (some g') := by
  have hstep : fw_step p t (fw p t g0 n) = .running g' := h
  cases hF : fw p t g0 n with
  | running g =>
    rw [hF] at hstep
    have hg : fw_guard p t g0 n = g := by simp [fw_guard, hF]
    rcases ha : advance_guard_fast p t g with e | og
    · rw [fw_step, ha] at hstep; cases hstep
    · rcases og with _ | g''
      · rw [fw_step, ha] at hstep; cases hstep
      · rw [fw_step, ha] at hstep
        cases hstep
        exact ⟨by rw [hg], by rw [hg, ha]⟩
  | escaped => rw [hF] at hstep; cases hstep
  | crashed e => rw [hF] at hstep; cases hstep

/-- A comparison index at which the Brent loop is certain to stop: the whole
prefix is still running and either the scheduled tortoise equals the hare or
the next advance is terminal. -/
def brent_event (c : Nat) : Prop :=
  (∀ i, i ≤ c + 1 → is_running (fw p t g0 i) = true) ∧
  (fw_guard p t g0 (brent_sched c).2.2 = fw_guard p t g0 (c + 1) ∨
   ∀ g', advance_guard_fast p t (fw_guard p t g0 (c + 1)) ≠ .ok (some g'))

lemma bd_of_event : ∀ (d c : Nat), brent_event p t g0 (c + d) →
    brent_done p t (brent_sched c).1 (brent_sched c).2.1
      (fw_guard p t g0 (brent_sched c).2.2) (fw_guard p t g0 (c + 1)) := by
  intro d
  induction d with
  | zero =>
    intro c hev
    rcases hev.2 with heq | hterm
    · exact .eq_case heq
    · by_cases he : fw_guard p t g0 (brent_sched c).2.2 = fw_guard p t g0 (c + 1)
      · exact .eq_case he
      · exact .halt_case he hterm
  | succ d ih =>
    intro c hev
    by_cases he : fw_guard p t g0 (brent_sched c).2.2 = fw_guard p t g0 (c + 1)
    · exact .eq_case he
    · have hrun2 : is_running (fw p t g0 (c + 2)) = true := hev.1 (c + 2) (by omega)
      have h2 := running_eq p t g0 (c + 2) hrun2
      obtain ⟨_, hstep⟩ := fw_running_succ p t g0 (c + 1) (fw_guard p t g0 (c + 2)) h2
      refine .cont_case he hstep ?_
      have hev' : brent_event p t g0 ((c + 1) + d) := by
        have : (c + 1) + d = c + (d + 1) := by omega
        rw [this]
        exact hev
      have hnext := ih (c + 1) hev'
      by_cases hpl : (brent_sched c).1 = (brent_sched c).2.1
      · have hs : brent_sched (c + 1) =
            ((brent_sched c).1 * 2, 1, c + 1) := by
          simp [brent_sched, hpl]
        rw [hs] at hnext
        simpa [hpl] using hnext
      · have hs : brent_sched (c + 1) =
            ((brent_sched c).1, (brent_sched c).2.1 + 1, (brent_sched c).2.2) := by
          simp [brent_sched, hpl]
        rw [hs] at hnext
        simpa [hpl] using hnext

end Trajectory

instance : Fintype Direction where
  elems :=
    ⟨([Direction.North, Direction.East, Direction.South, Direction.West] :
        List Direction), by decide⟩
  complete := by intro x; cases x <;> decide

/-- An upper bound on the row count of the four matrices. -/
def max_nrows (t : StepTable) : Nat :=
  max (max (t.steps_to_obstruction 0).nrows (t.steps_to_obstruction 1).nrows)
      (max (t.steps_to_obstruction 2).nrows (t.steps_to_obstruction 3).nrows)

/-- An upper bound on the column count of the four matrices. -/
def max_ncols (t : StepTable) : Nat :=
  max (max (t.steps_to_obstruction 0).ncols (t.steps_to_obstruction 1).ncols)
      (max (t.steps_to_obstruction 2).ncols (t.steps_to_obstruction 3).ncols)

lemma nrows_le_max (t : StepTable) (i : Fin 4) :
    (t.steps_to_obstruction i).nrows ≤ max_nrows t := by
  fin_cases i <;> simp [max_nrows]

lemma ncols_le_max (t : StepTable) (i : Fin 4) :
    (t.steps_to_obstruction i).ncols ≤ max_ncols t := by
  fin_cases i <;> simp [max_ncols]

/-- A successful fast advance implies the guard's position was inside its
direction matrix (otherwise `remaining_steps` fails on the checked index). -/
lemma advance_ok_bounds (p : Problem) (t : StepTable) (g g' : Guard)
    (h : advance_guard_fast p t g = .ok (some g')) :
    (t.steps_to_obstruction g.dir.index).in_bounds g.pos = true := by
  cases hb : (t.steps_to_obstruction g.dir.index).in_bounds g.pos with
  | true => rfl
  | false =>
    simp [advance_guard_fast, StepTable.remaining_steps, DMatrix.get_indexed, hb] at h

section AliveCase

variable (p : Problem) (t : StepTable) (g0 : Guard)

lemma alive_advance (hAll : ∀ m, is_running (fw p t g0 m) = true) (n : Nat) :
    advance_guard_fast p t (fw_guard p t g0 n) = .ok (some (fw_guard p t g0 (n + 1))) :=
  (fw_running_succ p t g0 n _ (running_eq p t g0 (n + 1) (hAll (n + 1)))).2

lemma alive_bounds (hAll : ∀ m, is_running (fw p t g0 m) = true) (n : Nat) :
    0 ≤ (fw_guard p t g0 n).pos.row ∧
    (fw_guard p t g0 n).pos.row < (max_nrows t : Int) ∧
    0 ≤ (fw_guard p t g0 n).pos.col ∧
    (fw_guard p t g0 n).pos.col < (max_ncols t : Int) := by
  have h := advance_ok_bounds p t _ _ (alive_advance p t g0 hAll n)
  have h1 := nrows_le_max t (fw_guard p t g0 n).dir.index
  have h2 := ncols_le_max t (fw_guard p t g0 n).dir.index
  simp only [DMatrix.in_bounds, Bool.and_eq_true, decide_eq_true_eq] at h
  omega

lemma alive_periodic (hAll : ∀ m, is_running (fw p t g0 m) = true) (a lm : Nat)
    (hlm : fw_guard p t g0 (a + lm) = fw_guard p t g0 a) :
    ∀ i, fw_guard p t g0 (a + i + lm) = fw_guard p t g0 (a + i) := by
  intro i
  induction i with
  | zero => simpa using hlm
  | succ i ih =>
    have h1 := alive_advance p t g0 hAll (a + i + lm)
    rw [ih] at h1
    have h2 := alive_advance p t g0 hAll (a + i)
    have h3 := h1.symm.trans h2
    have h4 : fw_guard p t g0 (a + i + lm + 1) = fw_guard p t g0 (a + i + 1) := by
      simpa using h3
    have h5 : a + (i + 1) + lm = a + i + lm + 1 := by omega
    have h6 : a + (i + 1) = a + i + 1 := by omega
    rw [h5, h6]
    exact h4

lemma alive_collision (hAll : ∀ m, is_running (fw p t g0 m) = true) :
    ∃ a lm, 1 ≤ lm ∧ fw_guard p t g0 (a + lm) = fw_guard p t g0 a := by
  classical
  have hcard : ((Finset.range (max_nrows t)) ×ˢ (Finset.range (max_ncols t)) ×ˢ
      (Finset.univ : Finset Direction)).card <
      (Finset.range (max_nrows t * max_ncols t * 4 + 1)).card := by
    simp only [Finset.card_product, Finset.card_range]
    have : (Finset.univ : Finset Direction).card = 4 := by decide
    rw [this]
    have : max_nrows t * (max_ncols t * 4) = max_nrows t * max_ncols t * 4 := by ring
    omega
  have hmaps : ∀ i ∈ Finset.range (max_nrows t * max_ncols t * 4 + 1),
      ((fw_guard p t g0 i).pos.row.toNat, (fw_guard p t g0 i).pos.col.toNat,
        (fw_guard p t g0 i).dir) ∈
      (Finset.range (max_nrows t)) ×ˢ (Finset.range (max_ncols t)) ×ˢ
        (Finset.univ : Finset Direction) := by
    intro i _
    have hb := alive_bounds p t g0 hAll i
    simp only [Finset.mem_product, Finset.mem_range, Finset.mem_univ, and_true]
    constructor
    · omega
    · omega
  obtain ⟨x, hx, y, hy, hxy, hf⟩ :=
    Finset.exists_ne_map_eq_of_card_lt_of_maps_to hcard hmaps
  have hbx := alive_bounds p t g0 hAll x
  have hby := alive_bounds p t g0 hAll y
  have h1 : (fw_guard p t g0 x).pos.row.toNat = (fw_guard p t g0 y).pos.row.toNat :=
    congrArg Prod.fst hf
  have h2 : (fw_guard p t g0 x).pos.col.toNat = (fw_guard p t g0 y).pos.col.toNat :=
    congrArg (fun q => q.2.1) hf
  have h3 : (fw_guard p t g0 x).dir = (fw_guard p t g0 y).dir :=
    congrArg (fun q => q.2.2) hf
  have hrow : (fw_guard p t g0 x).pos.row = (fw_guard p t g0 y).pos.row := by omega
  have hcol : (fw_guard p t g0 x).pos.col = (fw_guard p t g0 y).pos.col := by omega
  have hguards : fw_guard p t g0 x = fw_guard p t g0 y := by
    calc fw_guard p t g0 x
        = ⟨⟨(fw_guard p t g0 x).pos.row, (fw_guard p t g0 x).pos.col⟩,
            (fw_guard p t g0 x).dir⟩ := rfl
      _ = ⟨⟨(fw_guard p t g0 y).pos.row, (fw_guard p t g0 y).pos.col⟩,
            (fw_guard p t g0 y).dir⟩ := by rw [hrow, hcol, h3]
      _ = fw_guard p t g0 y := rfl
  rcases Nat.lt_or_ge x y with hlt | hge
  · refine ⟨x, y - x, by omega, ?_⟩
    have : x + (y - x) = y := by omega
    rw [this]
    exact hguards.symm
  · have hlt : y < x := by
      rcases Nat.lt_or_ge y x with h | h
      · exact h
      · exact absurd (by omega : x = y) hxy
    refine ⟨y, x - y, by omega, ?_⟩
    have : y + (x - y) = x := by omega
    rw [this]
    exact hguards

end AliveCase

/-- **C6** amended theorem: the Brent-style fast-walk cycle detection always
terminates — for every problem and table there is a fuel with which the loop
returns a verdict (loop-detected, escape, or a runtime failure; the original
claim's "either loop or escape" is refuted by
`c6_probe_neither_loop_nor_escape`).  The proof combines the two sources of
termination the spec names: a trajectory that stays in the grid ranges over
at most `max_nrows · max_ncols · 4` states, so it repeats and the doubling
schedule catches the repetition; a trajectory that leaves (or fails) stops
the loop directly. -/
theorem c6_brent_always_terminates (p : Problem) (t : StepTable) :
    ∃ fuel r, brent_cycle_detection fuel p t = some r := by
  classical
  rcases ha : advance_guard_fast p t p.guard with e | og
  · exact ⟨0, .error e, by simp [brent_cycle_detection, ha]⟩
  rcases og with _ | h
  · exact ⟨0, .ok false, by simp [brent_cycle_detection, ha]⟩
  have hF1 : fw p t p.guard 1 = .running h := by
    show fw_step p t (fw p t p.guard 0) = _
    simp [fw, fw_step, ha]
  have hY0 : fw_guard p t p.guard 0 = p.guard := rfl
  have hY1 : fw_guard p t p.guard 1 = h := by simp [fw_guard, hF1]
  have hev : ∃ c, brent_event p t p.guard c := by
    by_cases hAll : ∀ m, is_running (fw p t p.guard m) = true
    · obtain ⟨a, lm, hlm1, hper0⟩ := alive_collision p t p.guard hAll
      have hper := alive_periodic p t p.guard hAll a lm hper0
      have hk1 : a + lm < 2 ^ (a + lm) := Nat.lt_two_pow (a + lm)
      refine ⟨2 ^ (a + lm) - 1 + (lm - 1), fun i _ => hAll i, Or.inl ?_⟩
      have hs := brent_sched_in_phase (a + lm) (lm - 1) (by omega)
      rw [hs]
      show fw_guard p t p.guard (2 ^ (a + lm) - 1) = _
      have hidx : 2 ^ (a + lm) - 1 + (lm - 1) + 1 = (2 ^ (a + lm) - 1) + lm := by omega
      rw [hidx]
      have hp := hper (2 ^ (a + lm) - 1 - a)
      have hax : a + (2 ^ (a + lm) - 1 - a) = 2 ^ (a + lm) - 1 := by omega
      rw [hax] at hp
      exact hp.symm
    · push_neg at hAll
      obtain ⟨m, hm⟩ := hAll
      have hP : ∃ m, is_running (fw p t p.guard m) = false := by
        refine ⟨m, ?_⟩
        cases h' : is_running (fw p t p.guard m)
        · rfl
        · exact absurd h' hm
      have hm0 : is_running (fw p t p.guard (Nat.find hP)) = false := Nat.find_spec hP
      have hmin : ∀ i, i < Nat.find hP → is_running (fw p t p.guard i) = true := by
        intro i hi
        have hni := Nat.find_min hP hi
        cases h' : is_running (fw p t p.guard i)
        · exact absurd h' hni
        · rfl
      have hm2 : 2 ≤ Nat.find hP := by
        rcases Nat.lt_or_ge (Nat.find hP) 2 with h' | h'
        · interval_cases hfind : Nat.find hP
          · rw [show fw p t p.guard 0 = .running p.guard from rfl] at hm0
            simp [is_running] at hm0
          · rw [hF1] at hm0
            simp [is_running] at hm0
        · exact h'
      refine ⟨Nat.find hP - 2, fun i hi => hmin i (by omega), Or.inr ?_⟩
      intro g' hadv
      have hidx2 : Nat.find hP - 2 + 1 = Nat.find hP - 1 := by omega
      rw [hidx2] at hadv
      have hrun : fw p t p.guard (Nat.find hP - 1) =
          .running (fw_guard p t p.guard (Nat.find hP - 1)) :=
        running_eq p t p.guard (Nat.find hP - 1) (hmin _ (by omega))
      have hcontra : fw p t p.guard (Nat.find hP) = .running g' := by
        have hidx3 : Nat.find hP = (Nat.find hP - 1) + 1 := by omega
        rw [hidx3]
        show fw_step p t (fw p t p.guard (Nat.find hP - 1)) = _
        rw [hrun, fw_step, hadv]
      rw [hcontra] at hm0
      simp [is_running] at hm0
  obtain ⟨c, hev⟩ := hev
  have hbd2 : brent_done p t 1 1 p.guard h := by
    have hbd := bd_of_event p t p.guard c 0 (by simpa using hev)
    rw [hY1] at hbd
    simpa [hY0, brent_sched] using hbd
  obtain ⟨n, r, hn⟩ := brent_done_fuel p t hbd2
  refine ⟨n, r, ?_⟩
  simp only [brent_cycle_detection, ha]
  exact hn

end Day06
